import Mathlib

/-!
# Sehat Sathi: appointment scheduling

A shallow embedding of the appointment module of the backend
(`backend/src/modules/appointment`, `backend/src/models/Appointment.model.js`,
`backend/src/middleware/auth.middleware.js`), of its auth module
(`backend/src/modules/auth`, `backend/src/utils/jwt.util.js`) and of the parts of the
patient, doctor and report modules that the specification speaks of
(`patient.service.js`, `doctor.service.js`, `doctor.controller.js`,
`backend/src/models/Doctor.model.js`, `report.service.js`), together with the
properties of their specification.

Conventions of the embedding.

* The MongoDB collection of appointments is a list of documents in insertion
  order; every operation takes the collection and returns its outcome together
  with the collection after the call.
* A `Date` is its time value in milliseconds since the epoch; an Invalid Date
  is `none`.
* Each reading of the clock (`new Date()`) is an explicit argument.
* The identifier given to a new document is an explicit argument.
* `populate` replaces a reference by a projection of the referenced account
  and leaves the stored document as it is; the embedding returns the document.
* The `createdAt` and `updatedAt` timestamps are left out, except the `createdAt`
  of a doctor profile, by which the listing of doctors is sorted.
* A regular expression is compiled from its pattern text for the fragment of
  literals, `.`, groups, `|` and `*`; a pattern outside it is reported as such.
* Numbers (the duration in minutes) are integers.
* The fields of a request have the types the source documents: identifiers are
  well-formed ObjectIds, texts are strings.
* `User.model.js` is not among the sources: what the services need of it is
  modelled from the spec or taken as given (`UserSchema`).
-/

namespace SehatSathi

/-! ## JavaScript values -/

/-- A MongoDB ObjectId, identified with its hexadecimal rendering. -/
structure ObjectId where
  hex : String
deriving DecidableEq, Repr

/-- The method `ObjectId.prototype.toString`. -/
def ObjectId.toString (o : ObjectId) : String := o.hex

/-- The value received as `userId` by the service: documented as a string, while
the controller hands over `req.userId`, which `authenticate` sets to `user._id`,
an ObjectId. -/
inductive CallerId where
  | str (s : String)
  | oid (o : ObjectId)
deriving DecidableEq, Repr

/-- JavaScript `s !== v` for a string `s`: values of different types are never
strictly equal. -/
def strictNe (s : String) : CallerId → Bool
  | .str t => decide (s ≠ t)
  | .oid _ => true

/-- The code points removed by `String.prototype.trim` (WhiteSpace and
LineTerminator of ECMAScript). -/
def isJsWhiteSpace (c : Char) : Bool :=
  let n := c.toNat
  n == 0x09 || n == 0x0A || n == 0x0B || n == 0x0C || n == 0x0D || n == 0x20
    || n == 0xA0 || n == 0x1680 || (decide (0x2000 ≤ n) && decide (n ≤ 0x200A))
    || n == 0x2028 || n == 0x2029 || n == 0x202F || n == 0x205F || n == 0x3000
    || n == 0xFEFF

/-- The method `String.prototype.trim`, applied by the schema option `trim: true`. -/
def jsTrim (s : String) : String :=
  String.mk ((s.data.dropWhile isJsWhiteSpace).reverse.dropWhile isJsWhiteSpace).reverse

/-- The `length` of a JavaScript string: its number of UTF-16 code units. -/
def jsLength (s : String) : Nat :=
  (s.data.map (fun c => if c.toNat < 0x10000 then 1 else 2)).sum

/-- JavaScript truthiness of an optional string (`undefined`, `null` and the
empty string are falsy). -/
def truthy : Option String → Bool
  | none => false
  | some s => decide (s ≠ "")

/-! ## Data model -/

/-- An account document. `User.model.js` is not among the sources; the fields are
those the services read and write. -/
structure User where
  _id : ObjectId
  name : String
  email : String
  password : String
  role : String
  phone : Option String
  address : Option String
  dateOfBirth : Option Int
  gender : Option String
  isActive : Bool
deriving DecidableEq, Repr

/-- An appointment document (`appointmentSchema`). -/
structure Appointment where
  _id : ObjectId
  patientId : ObjectId
  doctorId : ObjectId
  appointmentDate : Int
  appointmentTime : String
  duration : Int
  status : String
  reason : Option String
  notes : Option String
  cancelledBy : Option String
  cancellationReason : Option String
deriving DecidableEq, Repr

/-- The appointments collection, in insertion order. -/
abbrev Store := List Appointment

/-- The object handed to `bookAppointment`. `appointmentDate` holds the value of
`new Date(appointmentDate)`. `status` stands for a `status` key of the request
body, which the service does not read. -/
structure AppointmentData where
  patientId : ObjectId
  doctorId : ObjectId
  appointmentDate : Option Int
  appointmentTime : String
  duration : Option Int
  reason : Option String
  notes : Option String
  status : Option String
deriving DecidableEq, Repr

/-- The errors thrown by the appointment operations. -/
inductive Err where
  | patientNotFound
  | doctorNotFound
  | slotAlreadyBooked
  | pastBooking
  | appointmentNotFound
  | unauthorized
  | pastDateOnSave
  | castFailed (path : String)
  | validationFailed (paths : List String)
  | duplicateKey
deriving DecidableEq, Repr

/-- The `message` of an error where the source fixes it; the texts of cast,
validation and duplicate-key errors are composed by the library. -/
def Err.message : Err → Option String
  | .patientNotFound => some "Patient not found"
  | .doctorNotFound => some "Doctor not found"
  | .slotAlreadyBooked => some "This time slot is already booked"
  | .pastBooking => some "Cannot book appointment in the past"
  | .appointmentNotFound => some "Appointment not found"
  | .unauthorized => some "Unauthorized to update this appointment"
  | .pastDateOnSave => some "Appointment date cannot be in the past"
  | .castFailed _ => none
  | .validationFailed _ => none
  | .duplicateKey => none

/-- `User.findById`. -/
def User.findById (users : List User) (id : ObjectId) : Option User :=
  users.find? (fun u => decide (u._id = id))

/-- JavaScript `!u || u.role !== r`. -/
def missingOrRoleNe (u : Option User) (r : String) : Bool :=
  match u with
  | none => true
  | some x => decide (x.role ≠ r)

/-! ## The appointment model (`Appointment.model.js`) -/

namespace AppointmentModel

/-- The `enum` of `status`. -/
def statusEnum : List String := ["pending", "confirmed", "completed", "cancelled"]

/-- The `enum` of `cancelledBy`. -/
def cancelledByEnum : List String := ["patient", "doctor", "system"]

/-- The paths of a document that fail the validators of the schema: `required`
on `appointmentTime` (the empty string counts as missing), `min` on `duration`,
`enum` on `status` and `cancelledBy`, `maxlength` on `reason`. -/
def invalidPaths (a : Appointment) : List String :=
  (if a.appointmentTime = "" then ["appointmentTime"] else [])
    ++ (if a.duration < 15 then ["duration"] else [])
    ++ (if a.status ∈ statusEnum then [] else ["status"])
    ++ (match a.reason with
        | some r => if 500 < jsLength r then ["reason"] else []
        | none => [])
    ++ (match a.cancelledBy with
        | some c => if c ∈ cancelledByEnum then [] else ["cancelledBy"]
        | none => [])

/-- The `pre('save')` hook: `appointmentDateTime < now`. -/
def preSaveRejects (now : Int) (a : Appointment) : Bool :=
  decide (a.appointmentDate < now)

/-- Two documents collide on a unique index: the primary key `_id`, or the
compound index on `(doctorId, appointmentDate, appointmentTime)` declared with
`unique: true`. -/
def collides (a b : Appointment) : Bool :=
  decide (a._id = b._id)
    || decide (a.doctorId = b.doctorId ∧ a.appointmentDate = b.appointmentDate
        ∧ a.appointmentTime = b.appointmentTime)

/-- `Appointment.findById`. -/
def findById (store : Store) (id : ObjectId) : Option Appointment :=
  store.find? (fun a => decide (a._id = id))

/-- `Appointment.findOne` with the filter of the conflict check:
`{ doctorId, appointmentDate, appointmentTime, status: { $in: ['pending', 'confirmed'] } }`. -/
def findOneActive (store : Store) (doctorId : ObjectId) (date : Int) (time : String) :
    Option Appointment :=
  store.find? (fun a => decide (a.doctorId = doctorId ∧ a.appointmentDate = date
    ∧ a.appointmentTime = time ∧ a.status ∈ ["pending", "confirmed"]))

/-- Saving a new document (`Appointment.create`): validation, then the
`pre('save')` hook, then the insertion, which the unique indexes may refuse. -/
def create (store : Store) (nowSave : Int) (doc : Appointment) :
    Except Err Appointment × Store :=
  if invalidPaths doc ≠ [] then (.error (.validationFailed (invalidPaths doc)), store)
  else if preSaveRejects nowSave doc then (.error .pastDateOnSave, store)
  else if store.any (fun b => collides b doc) then (.error .duplicateKey, store)
  else (.ok doc, store ++ [doc])

/-- Saving a loaded document (`appointment.save()`): validation, then the
`pre('save')` hook, then the update of the stored document with that `_id`. -/
def save (store : Store) (nowSave : Int) (doc : Appointment) :
    Except Err Appointment × Store :=
  if invalidPaths doc ≠ [] then (.error (.validationFailed (invalidPaths doc)), store)
  else if preSaveRejects nowSave doc then (.error .pastDateOnSave, store)
  else (.ok doc, store.map (fun b => if b._id = doc._id then doc else b))

end AppointmentModel

/-! ## The appointment service (`appointment.service.js`) -/

namespace AppointmentService

open AppointmentModel

/-- The function `bookAppointment`. `now` is the clock read by the service,
`nowSave` the clock read by the `pre('save')` hook, `newId` the `_id` given to
the new document. With an Invalid Date the filter of the conflict query cannot
be cast and `findOne` rejects. `duration || 30` takes 30 for a missing duration
and for 0. `reason` and `notes` pass through the `trim` setter of the schema. -/
def bookAppointment (users : List User) (store : Store) (now nowSave : Int)
    (newId : ObjectId) (appointmentData : AppointmentData) :
    Except Err Appointment × Store :=
  if missingOrRoleNe (User.findById users appointmentData.patientId) "patient" then
    (.error .patientNotFound, store)
  else if missingOrRoleNe (User.findById users appointmentData.doctorId) "doctor" then
    (.error .doctorNotFound, store)
  else
    match appointmentData.appointmentDate with
    | none => (.error (.castFailed "appointmentDate"), store)
    | some appointmentDateTime =>
      if (findOneActive store appointmentData.doctorId appointmentDateTime
          appointmentData.appointmentTime).isSome then
        (.error .slotAlreadyBooked, store)
      else if appointmentDateTime < now then
        (.error .pastBooking, store)
      else
        create store nowSave
          { _id := newId
            patientId := appointmentData.patientId
            doctorId := appointmentData.doctorId
            appointmentDate := appointmentDateTime
            appointmentTime := appointmentData.appointmentTime
            duration :=
              match appointmentData.duration with
              | none => 30
              | some n => if n = 0 then 30 else n
            reason := appointmentData.reason.map jsTrim
            notes := appointmentData.notes.map jsTrim
            status := "pending"
            cancelledBy := none
            cancellationReason := none }

/-- The function `getAppointmentById`. -/
def getAppointmentById (store : Store) (appointmentId : ObjectId) : Except Err Appointment :=
  match findById store appointmentId with
  | none => .error .appointmentNotFound
  | some appointment => .ok appointment

/-- The function `updateAppointmentStatus`. `nowSave` is the clock read by the
`pre('save')` hook. `cancellationReason` passes through the `trim` setter of
the schema. -/
def updateAppointmentStatus (store : Store) (nowSave : Int) (appointmentId : ObjectId)
    (status : String) (userId : CallerId) (userRole : String)
    (cancellationReason : Option String) : Except Err Appointment × Store :=
  match findById store appointmentId with
  | none => (.error .appointmentNotFound, store)
  | some appointment =>
    if userRole = "patient" ∧ strictNe appointment.patientId.toString userId = true then
      (.error .unauthorized, store)
    else if userRole = "doctor" ∧ strictNe appointment.doctorId.toString userId = true then
      (.error .unauthorized, store)
    else
      save store nowSave
        (if status = "cancelled" ∧ truthy cancellationReason = true then
          { appointment with
            status := status
            cancelledBy := some userRole
            cancellationReason := cancellationReason.map jsTrim }
        else
          { appointment with status := status })

end AppointmentService

/-! ## The appointment controller (`appointment.controller.js`) -/

namespace AppointmentController

/-- Modelled from the spec: the response envelope `{success, message, data}` with
its status code. `response.util.js`, which builds it, is not among the sources. -/
structure Response where
  code : Nat
  success : Bool
  message : Option String
  data : Option Appointment
deriving DecidableEq, Repr

/-- Modelled from the spec: `sendSuccess(res, code, message, data)` of the missing
`response.util.js`. -/
def sendSuccess (code : Nat) (message : String) (data : Appointment) : Response :=
  { code := code, success := true, message := some message, data := some data }

/-- Modelled from the spec: `sendError(res, code, message)` of the missing
`response.util.js`. -/
def sendError (code : Nat) (message : Option String) : Response :=
  { code := code, success := false, message := message, data := none }

/-- A `PATCH /api/appointments/:id/status` request after `authenticate`:
`req.userId`, `req.userRole`, `req.params.id` and the two keys read from `req.body`. -/
structure StatusRequest where
  userId : ObjectId
  userRole : String
  id : ObjectId
  status : Option String
  cancellationReason : Option String
deriving DecidableEq, Repr

/-- Lines 38 to 41 of `authenticate`: `req.userId = user._id` and
`req.userRole = user.role`. -/
def attachUser (user : User) (id : ObjectId) (status cancellationReason : Option String) :
    StatusRequest :=
  { userId := user._id, userRole := user.role, id := id, status := status,
    cancellationReason := cancellationReason }

/-- The handler `updateAppointmentStatus`. `req.userId` reaches the service as it
is, an ObjectId. -/
def updateAppointmentStatus (store : Store) (nowSave : Int) (req : StatusRequest) :
    Response × Store :=
  match req.status with
  | none => (sendError 400 (some "Status is required"), store)
  | some status =>
    if status = "" then (sendError 400 (some "Status is required"), store)
    else
      match AppointmentService.updateAppointmentStatus store nowSave req.id status
          (.oid req.userId) req.userRole req.cancellationReason with
      | (.ok appointment, store2) =>
        (sendSuccess 200 "Appointment status updated successfully" appointment, store2)
      | (.error error, store2) => (sendError 400 error.message, store2)

end AppointmentController

/-! ## Sequences of calls -/

/-- A call of one of the two operations of the service that write to the store,
with its arguments and the environment it runs in. -/
inductive Call where
  | book (users : List User) (now nowSave : Int) (newId : ObjectId) (data : AppointmentData)
  | update (nowSave : Int) (appointmentId : ObjectId) (status : String) (userId : CallerId)
      (userRole : String) (cancellationReason : Option String)

/-- The store after a call. -/
def Call.run (store : Store) : Call → Store
  | .book users now nowSave newId data =>
    (AppointmentService.bookAppointment users store now nowSave newId data).2
  | .update nowSave appointmentId status userId userRole cancellationReason =>
    (AppointmentService.updateAppointmentStatus store nowSave appointmentId status userId
      userRole cancellationReason).2

/-- The store reached from the empty store by a sequence of calls. -/
def storeAfter (calls : List Call) : Store :=
  calls.foldl Call.run []

/-- The appointments of a store that hold the slot `(doctorId, date, time)` with
status pending or confirmed. -/
def activeAt (store : Store) (doctorId : ObjectId) (date : Int) (time : String) : Store :=
  store.filter (fun a => decide (a.doctorId = doctorId ∧ a.appointmentDate = date
    ∧ a.appointmentTime = time ∧ (a.status = "pending" ∨ a.status = "confirmed")))

/-- The unique indexes hold in a store: no two of its documents collide. -/
def IndexesHold (store : Store) : Prop :=
  store.Pairwise (fun a b => AppointmentModel.collides a b = false)

/-! ## The specification's reading of a slot -/

/-- Following the spec ("appointment time (time-of-day slot)", written as in
"14:00"): the milliseconds after midnight denoted by a time-of-day `HH:MM`. -/
def timeOfDayMillis (t : String) : Option Int :=
  match t.data with
  | [h1, h2, ':', m1, m2] =>
    if h1.isDigit ∧ h2.isDigit ∧ m1.isDigit ∧ m2.isDigit then
      let h := (h1.toNat - 48) * 10 + (h2.toNat - 48)
      let m := (m1.toNat - 48) * 10 + (m2.toNat - 48)
      if h < 24 ∧ m < 60 then some (((h * 60 + m) * 60000 : Nat) : Int) else none
    else none
  | _ => none

/-- Following the spec ("`date+time`"): the moment formed from the appointment date
together with the appointment time-of-day. -/
def slotMoment (date : Int) (time : String) : Option Int :=
  (timeOfDayMillis time).map (fun ms => date + ms)

/-! ## Sample data -/

namespace Sample

/-- A patient account. -/
def patientP : User :=
  { _id := ⟨"650000000000000000000001"⟩, name := "P", email := "p@example.org",
    password := "hash-p", role := "patient", phone := none, address := none,
    dateOfBirth := none, gender := none, isActive := true }

/-- A second patient account. -/
def patientQ : User :=
  { _id := ⟨"650000000000000000000002"⟩, name := "Q", email := "q@example.org",
    password := "hash-q", role := "patient", phone := none, address := none,
    dateOfBirth := none, gender := none, isActive := true }

/-- A doctor account. -/
def doctorX : User :=
  { _id := ⟨"650000000000000000000003"⟩, name := "Dr. X", email := "x@example.org",
    password := "hash-x", role := "doctor", phone := none, address := none,
    dateOfBirth := none, gender := none, isActive := true }

/-- The accounts collection of the examples. -/
def users : List User := [patientP, patientQ, doctorX]

/-- The time value of 2025-06-01T00:00:00Z. -/
def june1 : Int := 1748736000000

/-- The time value of 2025-06-01T10:00:00Z. -/
def june1at10 : Int := 1748772000000

/-- The time value of 2025-05-20T09:00:00Z. -/
def may20 : Int := 1747731600000

/-- The time value of 2025-07-01T00:00:00Z. -/
def july1 : Int := 1751328000000

/-- The appointment of `patientP` with `doctorX` on 2025-06-01 at "14:00". -/
def apt (status : String) : Appointment :=
  { _id := ⟨"660000000000000000000001"⟩, patientId := patientP._id, doctorId := doctorX._id,
    appointmentDate := june1, appointmentTime := "14:00", duration := 30, status := status,
    reason := none, notes := none, cancelledBy := none, cancellationReason := none }

/-- A booking request for `doctorX` on 2025-06-01 at "14:00". -/
def request (patient : User) : AppointmentData :=
  { patientId := patient._id, doctorId := doctorX._id, appointmentDate := some june1,
    appointmentTime := "14:00", duration := none, reason := none, notes := none,
    status := none }

end Sample

/-! ## Listing appointments (`appointment.service.js`) -/

/-- The comparison of two strings by MongoDB under the simple binary collation: the
order of the UTF-8 bytes, which is the order of the code points. -/
def codePointsLt : List Char → List Char → Bool
  | _, [] => false
  | [], _ :: _ => true
  | a :: as, b :: bs =>
    decide (a.toNat < b.toNat) || (decide (a.toNat = b.toNat) && codePointsLt as bs)

namespace AppointmentService

/-- The sort `{ appointmentDate: -1, appointmentTime: -1 }`: whether `a` may stand
before `b`. `appointmentDate` is a Date, `appointmentTime` a String. -/
def sortsBefore (a b : Appointment) : Bool :=
  decide (b.appointmentDate < a.appointmentDate)
    || (decide (a.appointmentDate = b.appointmentDate)
      && !codePointsLt a.appointmentTime.data b.appointmentTime.data)

/-- The function `getAppointmentsByPatient`. Documents that agree on both sort keys
come in an order the database does not fix; they are kept in insertion order. -/
def getAppointmentsByPatient (store : Store) (patientId : ObjectId) : List Appointment :=
  (store.filter (fun a => decide (a.patientId = patientId))).insertionSort
    (fun a b => sortsBefore a b = true)

/-- The function `getAppointmentsByDoctor`. -/
def getAppointmentsByDoctor (store : Store) (doctorId : ObjectId) : List Appointment :=
  (store.filter (fun a => decide (a.doctorId = doctorId))).insertionSort
    (fun a b => sortsBefore a b = true)

end AppointmentService

/-! ## The other handlers of the appointment controller -/

namespace AppointmentController

/-- A `GET /api/appointments/:id` request after `authenticate`, the only middleware
of that route: `req.userId`, `req.userRole` and `req.params.id`. -/
structure IdRequest where
  userId : ObjectId
  userRole : String
  id : ObjectId
deriving DecidableEq, Repr

/-- The handler `getAppointmentById`. -/
def getAppointmentById (store : Store) (req : IdRequest) : Response :=
  match AppointmentService.getAppointmentById store req.id with
  | .ok appointment => sendSuccess 200 "Appointment retrieved successfully" appointment
  | .error error => sendError 404 error.message

/-- The body of a `POST /api/appointments` request: the keys the service reads, a
`status` key, and a `patientId` key. -/
structure BookingBody where
  patientId : Option String
  doctorId : ObjectId
  appointmentDate : Option Int
  appointmentTime : String
  duration : Option Int
  reason : Option String
  notes : Option String
  status : Option String
deriving DecidableEq, Repr

/-- A `POST /api/appointments` request after `authenticate`. -/
structure BookingRequest where
  userId : ObjectId
  userRole : String
  body : BookingBody
deriving DecidableEq, Repr

/-- The object `{ ...req.body, patientId: req.userId }`. -/
def appointmentData (req : BookingRequest) : AppointmentData :=
  { patientId := req.userId
    doctorId := req.body.doctorId
    appointmentDate := req.body.appointmentDate
    appointmentTime := req.body.appointmentTime
    duration := req.body.duration
    reason := req.body.reason
    notes := req.body.notes
    status := req.body.status }

/-- The handler `bookAppointment`. -/
def bookAppointment (users : List User) (store : Store) (now nowSave : Int)
    (newId : ObjectId) (req : BookingRequest) : Response × Store :=
  match AppointmentService.bookAppointment users store now nowSave newId
      (appointmentData req) with
  | (.ok appointment, store2) =>
    (sendSuccess 201 "Appointment booked successfully" appointment, store2)
  | (.error error, store2) => (sendError 400 error.message, store2)

end AppointmentController

/-! ## Validation of registration requests (`auth.validation.js`) -/

namespace AuthValidation

/-- The classes of characters that the pattern of `emailRegex` tells apart: white space
(`\s`), the at sign, the full stop, and every other character. -/
inductive CharClass where
  | space
  | atSign
  | dot
  | other
deriving DecidableEq, Repr

/-- The class of a character. -/
def charClass (c : Char) : CharClass :=
  if isJsWhiteSpace c then .space
  else if c = '@' then .atSign
  else if c = '.' then .dot
  else .other

/-- The pattern `\S`: a character that is not white space. -/
def nonSpace : RegularExpression CharClass :=
  .char .atSign + .char .dot + .char .other

/-- The pattern `\S+`. -/
def nonSpaces : RegularExpression CharClass :=
  nonSpace * .star nonSpace

/-- The regular expression `emailRegex`, anchored at both ends: `\S+@\S+\.\S+`. -/
def emailRegex : RegularExpression CharClass :=
  nonSpaces * .char .atSign * nonSpaces * .char .dot * nonSpaces

/-- The call `emailRegex.test(email)`. -/
def emailRegexTest (email : String) : Bool :=
  emailRegex.rmatch (email.data.map charClass)

/-- The keys of `req.body` that `validateRegister` reads. -/
structure RegisterBody where
  name : Option String
  email : Option String
  password : Option String
  role : Option String
  phone : Option String
deriving DecidableEq, Repr

/-- What a middleware does with a request: it calls `next()`, or it answers with a status
code and a message (`success: false`). -/
inductive Outcome where
  | next
  | respond (code : Nat) (message : String)
deriving DecidableEq, Repr

/-- The middleware `validateRegister`. -/
def validateRegister (body : RegisterBody) : Outcome :=
  if !truthy body.name || !truthy body.email || !truthy body.password || !truthy body.role then
    .respond 400 "Name, email, password, and role are required"
  else if !(["patient", "doctor"].contains (body.role.getD "")) then
    .respond 400 "Role must be either \x22patient\x22 or \x22doctor\x22"
  else if !emailRegexTest (body.email.getD "") then
    .respond 400 "Please provide a valid email address"
  else if jsLength (body.password.getD "") < 6 then
    .respond 400 "Password must be at least 6 characters long"
  else
    .next

/-- Following the spec ("the email has the shape non-space@non-space.non-space"): the
email is a non-empty run of characters that are not white space, an at sign, such a run,
a full stop, and such a run. -/
def EmailShape (email : String) : Prop :=
  ∃ a b c : List Char, email.data = a ++ '@' :: (b ++ '.' :: c)
    ∧ a ≠ [] ∧ b ≠ [] ∧ c ≠ []
    ∧ (∀ x ∈ a, isJsWhiteSpace x = false) ∧ (∀ x ∈ b, isJsWhiteSpace x = false)
    ∧ ∀ x ∈ c, isJsWhiteSpace x = false

end AuthValidation

/-! ## Accounts and tokens (`auth.service.js`, `jwt.util.js`) -/

/-- The method `String.prototype.toLowerCase`, on the ASCII letters; every other
character is left as it is. -/
def toLowerCase (s : String) : String :=
  String.mk (s.data.map Char.toLower)

/-- The errors thrown by the auth service and the token utility. -/
inductive AuthError where
  | userExists
  | invalidCredentials
  | accountInactive
  | userNotFound
  | invalidOrExpiredToken
  | validationFailed
  | duplicateKey
deriving DecidableEq, Repr

/-- The `message` of an error where the source fixes it; the texts of validation and
duplicate-key errors are composed by the library. -/
def AuthError.message : AuthError → Option String
  | .userExists => some "User with this email already exists"
  | .invalidCredentials => some "Invalid email or password"
  | .accountInactive => some "Account is inactive. Please contact support"
  | .userNotFound => some "User not found"
  | .invalidOrExpiredToken => some "Invalid or expired token"
  | .validationFailed => none
  | .duplicateKey => none

/-- The payload `{ userId, role }` of a token. -/
structure TokenPayload where
  userId : ObjectId
  role : String
deriving DecidableEq, Repr

/-- A token string as the library `jsonwebtoken` reads it: a string that does not
decode, or a token with its payload, its `iat` and `exp` claims (in seconds) and the
key it was signed with. -/
inductive Token where
  | malformed (raw : String)
  | signed (key : String) (payload : TokenPayload) (iat exp : Int)
deriving DecidableEq, Repr

/-- The settings of `env.config.js` that the token utility reads: `jwtSecret`, and
`jwtExpire` as the number of seconds it denotes. -/
structure EnvConfig where
  jwtSecret : String
  jwtExpire : Int
deriving DecidableEq, Repr

namespace JwtUtil

/-- The errors of the library `jsonwebtoken`. -/
inductive JwtError where
  | jsonWebTokenError (message : String)
  | tokenExpiredError
deriving DecidableEq, Repr

/-- The call `jwt.sign(payload, secret, { expiresIn })` at the moment `now`
(milliseconds): `iat` is the current second and `exp` is `iat + expiresIn`. -/
def sign (payload : TokenPayload) (secret : String) (expiresIn : Int) (now : Int) : Token :=
  .signed secret payload (now / 1000) (now / 1000 + expiresIn)

/-- The call `jwt.verify(token, secret)` at the moment `now` (milliseconds): the token
must decode, its signature must be that of `secret`, and the current second must be
before `exp`. -/
def verify (token : Token) (secret : String) (now : Int) : Except JwtError TokenPayload :=
  match token with
  | .malformed _ => .error (.jsonWebTokenError "jwt malformed")
  | .signed key payload _ exp =>
    if key ≠ secret then .error (.jsonWebTokenError "invalid signature")
    else if exp ≤ now / 1000 then .error .tokenExpiredError
    else .ok payload

/-- The function `generateToken`. -/
def generateToken (env : EnvConfig) (now : Int) (userId : ObjectId) (role : String) : Token :=
  sign { userId := userId, role := role } env.jwtSecret env.jwtExpire now

/-- The function `verifyToken`: every error of `jwt.verify` is caught and replaced. -/
def verifyToken (env : EnvConfig) (now : Int) (token : Token) :
    Except AuthError TokenPayload :=
  match verify token env.jwtSecret now with
  | .ok decoded => .ok decoded
  | .error _ => .error .invalidOrExpiredToken

end JwtUtil

/-- The object handed to `register`, after `validateRegister`. -/
structure UserData where
  name : String
  email : String
  password : String
  role : String
  phone : Option String
  address : Option String
  dateOfBirth : Option Int
  gender : Option String
deriving DecidableEq, Repr

/-- The parts of the missing `User.model.js` that the spec does not fix, taken as
given: the validators of the schema, the hashing of the password before a save, and the
method `comparePassword` (candidate, stored hash). -/
structure UserSchema where
  accepts : UserData → Bool
  hash : String → String
  comparePassword : String → String → Bool

namespace UserModel

/-- Modelled from the spec: `User.model.js` is not among the sources. The spec gives the
email of an account as "unique, case-insensitive": the `email` path lower-cases its
value, when a document is built and when the filter of a query is cast. -/
def castEmail (email : String) : String :=
  toLowerCase email

/-- The query `User.findOne({ email })`. -/
def findOneByEmail (users : List User) (email : String) : Option User :=
  users.find? (fun u => decide (u.email = castEmail email))

/-- Modelled from the spec: the document that `User.create` builds on the missing
`User.model.js`. The password is stored hashed, the email lower-cased, and an account is
created active. -/
def document (schema : UserSchema) (newId : ObjectId) (userData : UserData) : User :=
  { _id := newId
    name := userData.name
    email := castEmail userData.email
    password := schema.hash userData.password
    role := userData.role
    phone := userData.phone
    address := userData.address
    dateOfBirth := userData.dateOfBirth
    gender := userData.gender
    isActive := true }

/-- Modelled from the spec: `User.create` on the missing `User.model.js`. The validators
of the schema run, then the document is inserted unless its `_id` or its `email` is
that of a stored account ("email (unique, case-insensitive)"). -/
def create (schema : UserSchema) (users : List User) (newId : ObjectId)
    (userData : UserData) : Except AuthError User × List User :=
  if !schema.accepts userData then (.error .validationFailed, users)
  else if users.any (fun u => decide (u._id = newId ∨ u.email = castEmail userData.email)) then
    (.error .duplicateKey, users)
  else (.ok (document schema newId userData), users ++ [document schema newId userData])

end UserModel

namespace AuthService

/-- An account without its password (`user.toObject()` after `delete
userResponse.password`). -/
structure UserResponse where
  _id : ObjectId
  name : String
  email : String
  role : String
  phone : Option String
  address : Option String
  dateOfBirth : Option Int
  gender : Option String
  isActive : Bool
deriving DecidableEq, Repr

/-- The object `userResponse` of an account. -/
def userResponse (user : User) : UserResponse :=
  { _id := user._id, name := user.name, email := user.email, role := user.role,
    phone := user.phone, address := user.address, dateOfBirth := user.dateOfBirth,
    gender := user.gender, isActive := user.isActive }

/-- The object `{ user: userResponse, token }`. -/
structure AuthResult where
  user : UserResponse
  token : Token
deriving DecidableEq, Repr

/-- The function `register`. `now` is the clock read when the token is signed, `newId`
the `_id` given to the new account. -/
def register (schema : UserSchema) (env : EnvConfig) (users : List User) (now : Int)
    (newId : ObjectId) (userData : UserData) : Except AuthError AuthResult × List User :=
  match UserModel.findOneByEmail users userData.email with
  | some _ => (.error .userExists, users)
  | none =>
    match UserModel.create schema users newId userData with
    | (.error error, users2) => (.error error, users2)
    | (.ok user, users2) =>
      (.ok { user := userResponse user
             token := JwtUtil.generateToken env now user._id user.role }, users2)

/-- The function `login`. -/
def login (schema : UserSchema) (env : EnvConfig) (users : List User) (now : Int)
    (email password : String) : Except AuthError AuthResult :=
  match UserModel.findOneByEmail users email with
  | none => .error .invalidCredentials
  | some user =>
    if !user.isActive then .error .accountInactive
    else if !schema.comparePassword password user.password then .error .invalidCredentials
    else
      .ok { user := userResponse user
            token := JwtUtil.generateToken env now user._id user.role }

end AuthService

/-- A call of `register`, with its arguments and the environment it runs in. -/
structure Registration where
  now : Int
  newId : ObjectId
  userData : UserData
deriving DecidableEq, Repr

/-- The accounts reached from the empty collection by a sequence of `register` calls. -/
def usersAfter (schema : UserSchema) (env : EnvConfig) (regs : List Registration) :
    List User :=
  regs.foldl (fun users r =>
    (AuthService.register schema env users r.now r.newId r.userData).2) []

/-- The emails of a collection are stored lower-cased and no two of them are equal. -/
def EmailsUnique (users : List User) : Prop :=
  (∀ u ∈ users, toLowerCase u.email = u.email)
    ∧ users.Pairwise (fun u v => u.email ≠ v.email)

namespace Sample

/-- A deactivated patient account; its password is "secret-r". -/
def patientR : User :=
  { _id := ⟨"650000000000000000000004"⟩, name := "R", email := "r@example.org",
    password := "hash-secret-r", role := "patient", phone := none, address := none,
    dateOfBirth := none, gender := none, isActive := false }

/-- An active patient account; its password is "secret-s". -/
def patientS : User :=
  { _id := ⟨"650000000000000000000005"⟩, name := "S", email := "s@example.org",
    password := "hash-secret-s", role := "patient", phone := none, address := none,
    dateOfBirth := none, gender := none, isActive := true }

/-- A schema that accepts every document and a hashing that can be read. -/
def schema : UserSchema :=
  { accepts := fun _ => true
    hash := fun password => "hash-" ++ password
    comparePassword := fun candidate stored => decide (stored = "hash-" ++ candidate) }

/-- A configuration with tokens that live one second. -/
def env : EnvConfig :=
  { jwtSecret := "key", jwtExpire := 1 }

/-- The registration data of patient S, the email written in capitals. -/
def dataS : UserData :=
  { name := "S", email := "S@EXAMPLE.ORG", password := "secret-s", role := "patient",
    phone := none, address := none, dateOfBirth := none, gender := none }

end Sample

/-! ## The auth middleware (`auth.middleware.js`) -/

/-- The method `String.prototype.startsWith`, on the characters of the two strings. -/
def startsWithChars : List Char → List Char → Bool
  | _, [] => true
  | [], _ :: _ => false
  | c :: cs, p :: ps => decide (c = p) && startsWithChars cs ps

namespace AuthMiddleware

/-- What `authenticate` binds on the request: `req.user` (the account, selected
without its password), `req.userId` and `req.userRole`. -/
structure Bound where
  user : AuthService.UserResponse
  userId : ObjectId
  userRole : String
deriving DecidableEq, Repr

/-- What `authenticate` does with a request: it calls `next()` with the request bound
to an account, or it answers with a status code and a message. -/
inductive Outcome where
  | next (bound : Bound)
  | respond (code : Nat) (message : Option String)
deriving DecidableEq, Repr

/-- The middleware `authenticate`. `authorization` is `req.headers.authorization`,
`decode` the reading of a token string by the library `jsonwebtoken`, `now` the clock
read when the token is verified. An error caught is answered with
`error.message || 'Invalid token'`. -/
def authenticate (env : EnvConfig) (decode : String → Token) (users : List User) (now : Int)
    (authorization : Option String) : Outcome :=
  match authorization with
  | none => .respond 401 (some "No token provided, authorization denied")
  | some authHeader =>
    if authHeader = "" ∨ startsWithChars authHeader.data "Bearer ".data = false then
      .respond 401 (some "No token provided, authorization denied")
    else
      match JwtUtil.verifyToken env now (decode (String.mk (authHeader.data.drop 7))) with
      | .error error =>
        .respond 401 (error.message.map (fun m => if m = "" then "Invalid token" else m))
      | .ok decoded =>
        match User.findById users decoded.userId with
        | none => .respond 401 (some "User not found")
        | some user =>
          if !user.isActive then .respond 401 (some "User account is inactive")
          else
            .next { user := AuthService.userResponse user
                    userId := user._id
                    userRole := user.role }

/-- The middleware returned by `authorize(...roles)`, applied to a request whose
`req.user` is `user`. -/
def authorize (roles : List String) (user : Option AuthService.UserResponse) :
    AuthValidation.Outcome :=
  match user with
  | none => .respond 401 "Authentication required"
  | some u =>
    if !roles.contains u.role then .respond 403 "Access denied. Insufficient permissions"
    else .next

end AuthMiddleware

/-! ## The patient service (`patient.service.js`) -/

namespace PatientService

/-- The object `updateData` handed to `updateProfile`: the five keys the service reads,
and keys it does not read. A key that is absent is `none`. -/
structure UpdateData where
  name : Option String
  phone : Option String
  address : Option String
  dateOfBirth : Option Int
  gender : Option String
  email : Option String
  role : Option String
  password : Option String
  isActive : Option Bool
deriving DecidableEq, Repr

/-- The errors thrown by the patient service. -/
inductive PatientError where
  | patientNotFound
  | notPatient
  | validationFailed
deriving DecidableEq, Repr

/-- The `message` of an error where the source fixes it. -/
def PatientError.message : PatientError → Option String
  | .patientNotFound => some "Patient not found"
  | .notPatient => some "User is not a patient"
  | .validationFailed => none

/-- The update `{ $set: allowedFields }` applied to an account: of `name`, `phone`,
`address`, `dateOfBirth` and `gender`, the keys that are not `undefined`. -/
def applyAllowed (updateData : UpdateData) (user : User) : User :=
  { user with
    name := match updateData.name with
      | some v => v
      | none => user.name
    phone := match updateData.phone with
      | some v => some v
      | none => user.phone
    address := match updateData.address with
      | some v => some v
      | none => user.address
    dateOfBirth := match updateData.dateOfBirth with
      | some v => some v
      | none => user.dateOfBirth
    gender := match updateData.gender with
      | some v => some v
      | none => user.gender }

/-- The write of `User.findByIdAndUpdate`: the first account with the given `_id` is
replaced by its update. -/
def updateFirst (userId : ObjectId) (f : User → User) : List User → List User
  | [] => []
  | u :: us => if u._id = userId then f u :: us else u :: updateFirst userId f us

/-- The function `updateProfile`. `runValidators` stands for the update validators of
the missing `User.model.js`, which run before the query is sent. The account is written
by `findByIdAndUpdate` before its role is tested. -/
def updateProfile (runValidators : UpdateData → Bool) (users : List User)
    (userId : ObjectId) (updateData : UpdateData) : Except PatientError User × List User :=
  if !runValidators updateData then (.error .validationFailed, users)
  else
    match User.findById users userId with
    | none => (.error .patientNotFound, users)
    | some found =>
      if (applyAllowed updateData found).role ≠ "patient" then
        (.error .notPatient, updateFirst userId (applyAllowed updateData) users)
      else
        (.ok (applyAllowed updateData found),
          updateFirst userId (applyAllowed updateData) users)

/-- Following the spec ("restricted to a fixed allow-list (name, phone, address,
dateOfBirth, gender) — role and email are immutable through this path"): account `v`
differs from account `u` at most in the allow-listed fields that the payload carries,
which hold the payload's values. -/
def AllowedChange (updateData : UpdateData) (u v : User) : Prop :=
  v._id = u._id ∧ v.email = u.email ∧ v.password = u.password ∧ v.role = u.role
    ∧ v.isActive = u.isActive
    ∧ (updateData.name = none → v.name = u.name)
    ∧ (updateData.phone = none → v.phone = u.phone)
    ∧ (updateData.address = none → v.address = u.address)
    ∧ (updateData.dateOfBirth = none → v.dateOfBirth = u.dateOfBirth)
    ∧ (updateData.gender = none → v.gender = u.gender)
    ∧ (∀ x, updateData.name = some x → v.name = x)
    ∧ (∀ x, updateData.phone = some x → v.phone = some x)
    ∧ (∀ x, updateData.address = some x → v.address = some x)
    ∧ (∀ x, updateData.dateOfBirth = some x → v.dateOfBirth = some x)
    ∧ (∀ x, updateData.gender = some x → v.gender = some x)

end PatientService

/-! ## Regular expressions (`new RegExp(source, 'i')`) -/

namespace RegExp

/-- A regular expression of the fragment of the pattern syntax that is modelled:
characters, `.`, the quantifiers `*`, `+` and `?`, alternatives and groups. -/
inductive Rx where
  | never
  | empty
  | chr (c : Char)
  | any
  | seq (a b : Rx)
  | alt (a b : Rx)
  | star (a : Rx)
deriving DecidableEq, Repr

/-- The outcome of `new RegExp(source, 'i')` when no expression results: the
`SyntaxError` that the constructor throws, or a pattern that uses syntax outside the
modelled fragment (classes, anchors, braces, other escapes, `(?`, lazy quantifiers). -/
inductive RegExpError where
  | syntaxError (reason : String)
  | outsideFragment
deriving DecidableEq, Repr

/-- A line terminator, which `.` does not match. -/
def isLineTerminator (c : Char) : Bool :=
  c.toNat == 0x0A || c.toNat == 0x0D || c.toNat == 0x2028 || c.toNat == 0x2029

/-- The syntax characters of a pattern: `^ $ \ . * + ? ( ) [ ] { } |`. -/
def isSyntaxChar (c : Char) : Bool :=
  [94, 36, 92, 46, 42, 43, 63, 40, 41, 91, 93, 123, 125, 124].contains c.toNat

/-- Whether the expression matches the empty string. -/
def Rx.nullable : Rx → Bool
  | .never => false
  | .empty => true
  | .chr _ => false
  | .any => false
  | .seq a b => a.nullable && b.nullable
  | .alt a b => a.nullable || b.nullable
  | .star _ => true

/-- The expression for what may follow the character `c`, under the flag `i` (letter case
of the ASCII letters is ignored). -/
def Rx.deriv (c : Char) : Rx → Rx
  | .never => .never
  | .empty => .never
  | .chr a => if a.toLower = c.toLower then .empty else .never
  | .any => if isLineTerminator c then .never else .empty
  | .seq a b =>
    if a.nullable then .alt (.seq (a.deriv c) b) (b.deriv c) else .seq (a.deriv c) b
  | .alt a b => .alt (a.deriv c) (b.deriv c)
  | .star a => .seq (a.deriv c) (.star a)

/-- Whether the expression matches some initial part of the input. -/
def matchesStart : List Char → Rx → Bool
  | [], r => r.nullable
  | c :: cs, r => r.nullable || matchesStart cs (r.deriv c)

/-- Whether the expression has a match somewhere in the input (`regex.test(input)`, the
operator `$regex` of a query). -/
def Rx.test (r : Rx) : List Char → Bool
  | [] => r.nullable
  | c :: cs => matchesStart (c :: cs) r || r.test cs

/-- The state of the reading of a group: the alternatives read so far, the terms of the
current alternative (latest first), and whether the latest term carries a quantifier. -/
structure Frame where
  alts : List Rx
  terms : List Rx
  quantified : Bool
deriving DecidableEq, Repr

/-- The sequence of the terms of an alternative. -/
def seqOf (terms : List Rx) : Rx :=
  terms.foldl (fun acc t => .seq t acc) .empty

/-- The expression of a group that has been read to its end. -/
def Frame.close (f : Frame) : Rx :=
  (seqOf f.terms :: f.alts).foldl (fun acc a => .alt a acc) .never

/-- A term added to the current alternative. -/
def Frame.push (f : Frame) (t : Rx) : Frame :=
  { f with terms := t :: f.terms, quantified := false }

/-- The reading of a pattern from left to right, with the groups that are open. -/
def parseLoop : List Char → Frame → List Frame → Except RegExpError Rx
  | [], cur, [] => .ok cur.close
  | [], _, _ :: _ => .error (.syntaxError "Unterminated group")
  | c :: rest, cur, stack =>
    if c = '.' then parseLoop rest (cur.push .any) stack
    else if c = '|' then
      parseLoop rest { alts := seqOf cur.terms :: cur.alts, terms := [], quantified := false }
        stack
    else if c = '(' then
      match rest with
      | '?' :: _ => .error .outsideFragment
      | _ => parseLoop rest { alts := [], terms := [], quantified := false } (cur :: stack)
    else if c = ')' then
      match stack with
      | [] => .error (.syntaxError "Unmatched parenthesis")
      | outer :: stack2 => parseLoop rest (outer.push cur.close) stack2
    else if c = '*' ∨ c = '+' ∨ c = '?' then
      match cur.terms with
      | [] => .error (.syntaxError "Nothing to repeat")
      | t :: ts =>
        if cur.quantified then
          if c = '?' then .error .outsideFragment
          else .error (.syntaxError "Nothing to repeat")
        else
          parseLoop rest
            { cur with
              terms := (if c = '*' then .star t
                        else if c = '+' then .seq t (.star t)
                        else .alt t .empty) :: ts
              quantified := true }
            stack
    else if c.toNat = 92 then
      match rest with
      | [] => .error (.syntaxError "Pattern ends with a backslash")
      | e :: rest2 =>
        if isSyntaxChar e then parseLoop rest2 (cur.push (.chr e)) stack
        else .error .outsideFragment
    else if isSyntaxChar c then .error .outsideFragment
    else parseLoop rest (cur.push (.chr c)) stack

/-- The constructor call `new RegExp(source, 'i')`. -/
def compile (source : String) : Except RegExpError Rx :=
  parseLoop source.data { alts := [], terms := [], quantified := false } []

end RegExp

/-- The method `String.prototype.includes`, on the characters of the two strings. -/
def includesChars : List Char → List Char → Bool
  | [], k => k.isEmpty
  | c :: cs, k => startsWithChars (c :: cs) k || includesChars cs k

/-! ## Doctor profiles (`Doctor.model.js`, `doctor.service.js`, `doctor.controller.js`) -/

/-- A doctor profile document (`doctorSchema`); `createdAt` is the timestamp the schema
option `timestamps` adds. -/
structure Doctor where
  _id : ObjectId
  userId : ObjectId
  specialization : String
  qualification : String
  experience : Int
  consultationFee : Int
  bio : Option String
  monday : Bool
  tuesday : Bool
  wednesday : Bool
  thursday : Bool
  friday : Bool
  saturday : Bool
  sunday : Bool
  workingHoursStart : String
  workingHoursEnd : String
  rating : Int
  totalReviews : Int
  isVerified : Bool
  createdAt : Int
deriving DecidableEq, Repr

/-- The object `doctorData` handed to `createProfile`, which the controller takes from
`req.body` as it is: a key for each path of the schema, `userId` among them. A key that
is absent is `none`. -/
structure DoctorData where
  userId : Option ObjectId
  specialization : Option String
  qualification : Option String
  experience : Option Int
  consultationFee : Option Int
  bio : Option String
  monday : Option Bool
  tuesday : Option Bool
  wednesday : Option Bool
  thursday : Option Bool
  friday : Option Bool
  saturday : Option Bool
  sunday : Option Bool
  workingHoursStart : Option String
  workingHoursEnd : Option String
  rating : Option Int
  totalReviews : Option Int
  isVerified : Option Bool
deriving DecidableEq, Repr

/-- The errors thrown by the doctor service. -/
inductive DoctorError where
  | userNotFound
  | notDoctor
  | profileExists
  | doctorNotFound
  | profileNotFound
  | validationFailed (paths : List String)
  | duplicateKey
  | regExp (error : RegExp.RegExpError)
deriving DecidableEq, Repr

/-- The `message` of an error where the source fixes it. -/
def DoctorError.message : DoctorError → Option String
  | .userNotFound => some "User not found"
  | .notDoctor => some "User is not a doctor"
  | .profileExists => some "Doctor profile already exists"
  | .doctorNotFound => some "Doctor not found"
  | .profileNotFound => some "Doctor profile not found"
  | .validationFailed _ => none
  | .duplicateKey => none
  | .regExp _ => none

namespace DoctorModel

/-- The paths of the object given to `Doctor.create` that fail the validators of the
schema: `required` on `specialization`, `qualification` (after `trim`), `experience` and
`consultationFee`, `min: 0` on the last two, `maxlength` on `bio`, `min` and `max` on
`rating`. -/
def invalidPaths (data : DoctorData) : List String :=
  (if jsTrim (data.specialization.getD "") = "" then ["specialization"] else [])
    ++ (if jsTrim (data.qualification.getD "") = "" then ["qualification"] else [])
    ++ (match data.experience with
        | some n => if n < 0 then ["experience"] else []
        | none => ["experience"])
    ++ (match data.consultationFee with
        | some n => if n < 0 then ["consultationFee"] else []
        | none => ["consultationFee"])
    ++ (match data.bio with
        | some b => if 1000 < jsLength (jsTrim b) then ["bio"] else []
        | none => [])
    ++ (match data.rating with
        | some n => if n < 0 ∨ 5 < n then ["rating"] else []
        | none => [])

/-- The document that `Doctor.create` builds: the setters (`trim`) and the defaults of
the schema applied. -/
def document (now : Int) (newId userId : ObjectId) (data : DoctorData) : Doctor :=
  { _id := newId
    userId := userId
    specialization := jsTrim (data.specialization.getD "")
    qualification := jsTrim (data.qualification.getD "")
    experience := data.experience.getD 0
    consultationFee := data.consultationFee.getD 0
    bio := data.bio.map jsTrim
    monday := data.monday.getD true
    tuesday := data.tuesday.getD true
    wednesday := data.wednesday.getD true
    thursday := data.thursday.getD true
    friday := data.friday.getD true
    saturday := data.saturday.getD false
    sunday := data.sunday.getD false
    workingHoursStart := data.workingHoursStart.getD "09:00"
    workingHoursEnd := data.workingHoursEnd.getD "17:00"
    rating := data.rating.getD 0
    totalReviews := data.totalReviews.getD 0
    isVerified := data.isVerified.getD false
    createdAt := now }

/-- The query `Doctor.findOne({ userId })`. -/
def findOneByUserId (doctors : List Doctor) (userId : ObjectId) : Option Doctor :=
  doctors.find? (fun d => decide (d.userId = userId))

/-- The call `Doctor.create(object)` where `userId` is the `userId` of the object:
validation, then the insertion, which the unique indexes (`_id`, and `userId` declared
with `unique: true`) may refuse. -/
def create (doctors : List Doctor) (now : Int) (newId userId : ObjectId) (data : DoctorData) :
    Except DoctorError Doctor × List Doctor :=
  if invalidPaths data ≠ [] then (.error (.validationFailed (invalidPaths data)), doctors)
  else if doctors.any (fun d => decide (d._id = newId ∨ d.userId = userId)) then
    (.error .duplicateKey, doctors)
  else (.ok (document now newId userId data), doctors ++ [document now newId userId data])

end DoctorModel

namespace DoctorService

/-- The function `createProfile`. The object given to `Doctor.create` is
`{ userId, ...doctorData }`: a `userId` key of `doctorData` comes later and replaces the
argument. -/
def createProfile (users : List User) (doctors : List Doctor) (now : Int) (newId : ObjectId)
    (userId : ObjectId) (doctorData : DoctorData) : Except DoctorError Doctor × List Doctor :=
  match User.findById users userId with
  | none => (.error .userNotFound, doctors)
  | some user =>
    if user.role ≠ "doctor" then (.error .notDoctor, doctors)
    else
      match DoctorModel.findOneByUserId doctors userId with
      | some _ => (.error .profileExists, doctors)
      | none =>
        DoctorModel.create doctors now newId
          (match doctorData.userId with
            | some own => own
            | none => userId)
          doctorData

/-- The sort `{ createdAt: -1 }`; profiles created at the same moment are kept in
insertion order. -/
def newestFirst (doctors : List Doctor) : List Doctor :=
  doctors.insertionSort (fun a b => b.createdAt ≤ a.createdAt)

/-- The function `getAllDoctors`, applied to the `specialization` key of `filters`. -/
def getAllDoctors (doctors : List Doctor) (specialization : Option String) :
    Except DoctorError (List Doctor) :=
  if truthy specialization then
    match RegExp.compile (specialization.getD "") with
    | .error error => .error (.regExp error)
    | .ok regex => .ok (newestFirst (doctors.filter (fun d => regex.test d.specialization.data)))
  else .ok (newestFirst doctors)

end DoctorService

namespace DoctorController

/-- Modelled from the spec: the response envelope `{success, message, data}` with its
status code, for the doctor routes. -/
structure Response where
  code : Nat
  success : Bool
  message : Option String
  data : Option Doctor
deriving DecidableEq, Repr

/-- The handler `createProfile` of `POST /api/doctors/profile`, after `authenticate` and
`authorize('doctor')`: `req.userId` and `req.body` go to the service as they are. -/
def createProfile (users : List User) (doctors : List Doctor) (now : Int) (newId : ObjectId)
    (userId : ObjectId) (body : DoctorData) : Response × List Doctor :=
  match DoctorService.createProfile users doctors now newId userId body with
  | (.ok profile, doctors2) =>
    ({ code := 201, success := true, message := some "Doctor profile created successfully",
       data := some profile }, doctors2)
  | (.error error, doctors2) =>
    ({ code := 400, success := false, message := error.message, data := none }, doctors2)

end DoctorController

/-- A call of `createProfile`, with its arguments and the environment it runs in. -/
structure ProfileCall where
  now : Int
  newId : ObjectId
  userId : ObjectId
  doctorData : DoctorData
deriving DecidableEq, Repr

/-- The profiles reached from the empty collection by a sequence of `createProfile`
calls, the accounts being `users`. -/
def profilesAfter (users : List User) (calls : List ProfileCall) : List Doctor :=
  calls.foldl (fun doctors c =>
    (DoctorService.createProfile users doctors c.now c.newId c.userId c.doctorData).2) []

namespace Sample

/-- A second doctor account. -/
def doctorZ : User :=
  { _id := ⟨"650000000000000000000007"⟩, name := "Dr. Z", email := "z@example.org",
    password := "hash-z", role := "doctor", phone := none, address := none,
    dateOfBirth := none, gender := none, isActive := true }

/-- The accounts collection of the examples on doctor profiles. -/
def accounts : List User := [patientP, doctorX, doctorZ]

/-- A profile payload with the given `userId` key and specialization. -/
def profileData (userId : Option ObjectId) (specialization : String) : DoctorData :=
  { userId := userId, specialization := some specialization, qualification := some "MD",
    experience := some 5, consultationFee := some 100, bio := none, monday := none,
    tuesday := none, wednesday := none, thursday := none, friday := none, saturday := none,
    sunday := none, workingHoursStart := none, workingHoursEnd := none, rating := none,
    totalReviews := none, isVerified := none }

/-- The profile built from `profileData` for the account `userId`. -/
def profile (id : String) (userId : ObjectId) (specialization : String) (createdAt : Int) :
    Doctor :=
  DoctorModel.document createdAt ⟨id⟩ userId (profileData none specialization)

/-- Two stored profiles: a cardiologist and a dermatologist. -/
def profiles : List Doctor :=
  [profile "670000000000000000000001" doctorX._id "Cardiology" may20,
    profile "670000000000000000000002" doctorZ._id "Dermatology" june1]

end Sample

/-! ## Reports (`report.service.js`) -/

namespace ReportService

/-- A message of a chatbot session. -/
structure Message where
  role : String
  content : String
deriving DecidableEq, Repr

/-- The object returned by `analyzeConversation`. -/
structure ReportData where
  symptoms : List String
  diagnosis : String
  recommendations : List String
  severity : String
  suggestedActions : List String
  notes : String
deriving DecidableEq, Repr

/-- The table `symptomKeywords`, in the order of its keys. -/
def symptomKeywords : List (String × String) :=
  [("headache", "Headache"), ("fever", "Fever"), ("cough", "Cough"), ("cold", "Cold"),
    ("pain", "Pain"), ("nausea", "Nausea"), ("vomiting", "Vomiting"),
    ("diarrhea", "Diarrhea"), ("fatigue", "Fatigue"), ("dizziness", "Dizziness"),
    ("chest pain", "Chest Pain"), ("shortness of breath", "Shortness of Breath"),
    ("sore throat", "Sore Throat"), ("rash", "Rash"), ("swelling", "Swelling")]

/-- The method `Array.prototype.join`. -/
def joinWith (separator : String) : List String → String
  | [] => ""
  | [x] => x
  | x :: y :: rest => x ++ separator ++ joinWith separator (y :: rest)

/-- The array `[...new Set(values)]`: the values without repetition, each at its first
place. -/
def uniqueInOrder : List String → List String
  | [] => []
  | x :: xs => x :: (uniqueInOrder xs).filter (fun y => decide (y ≠ x))

/-- The string `allText`: the contents of the messages of role 'user', lower-cased and
joined by a space. -/
def allText (messages : List Message) : String :=
  joinWith " " ((messages.filter (fun msg => decide (msg.role = "user"))).map
    (fun msg => toLowerCase msg.content))

/-- The array `symptoms`: the labels of the keywords that `allText` includes, in the
order of the table. -/
def symptomsOf (text : String) : List String :=
  (symptomKeywords.filter (fun kv => includesChars text.data kv.1.data)).map (fun kv => kv.2)

/-- The function `analyzeConversation`. `dateText` is the value of
`new Date().toLocaleDateString()`. -/
def analyzeConversation (dateText : String) (messages : List Message) : ReportData :=
  let uniqueSymptoms := uniqueInOrder (symptomsOf (allText messages))
  let high := uniqueSymptoms.contains "Chest Pain" || uniqueSymptoms.contains "Shortness of Breath"
  let infection := uniqueSymptoms.contains "Fever" && decide (2 < uniqueSymptoms.length)
  { symptoms := if 0 < uniqueSymptoms.length then uniqueSymptoms else ["General consultation"]
    diagnosis :=
      if high then "Possible cardiovascular or respiratory issue"
      else if infection then "Possible infection"
      else if 0 < uniqueSymptoms.length then "Symptomatic presentation requiring evaluation"
      else "General consultation"
    recommendations :=
      ["Follow up with a healthcare provider if symptoms persist",
        "Maintain a symptom diary",
        "Follow prescribed medications if any"]
    severity :=
      if high then "high"
      else if infection then "medium"
      else if 0 < uniqueSymptoms.length then
        (if 3 < uniqueSymptoms.length then "medium" else "low")
      else "low"
    suggestedActions :=
      if high then
        ["Seek immediate medical attention", "Monitor vital signs", "Do not delay consultation"]
      else if infection then
        ["Consult with a healthcare provider", "Monitor temperature regularly",
          "Stay hydrated and rest"]
      else
        ["Monitor symptoms closely", "Maintain adequate hydration", "Get adequate rest"]
    notes := "Report generated from chatbot conversation on " ++ dateText
      ++ ". This is a preliminary analysis based on reported symptoms. Please consult with a qualified healthcare professional for accurate diagnosis and treatment." }

/-- Following the claim's words ("distinct symptoms detected"): the number of distinct
labels among the keywords that the text contains. -/
def distinctSymptoms (text : String) : Nat :=
  ((symptomKeywords.filter (fun kv => includesChars text.data kv.1.data)).map
    (fun kv => kv.2)).toFinset.card

end ReportService

/-! ## Properties -/

section Lemmas

open AppointmentModel AppointmentService

theorem missingOrRoleNe_eq_false {u : Option User} {r : String} :
    missingOrRoleNe u r = false ↔ ∃ x, u = some x ∧ x.role = r := by
  cases u with
  | none => simp [missingOrRoleNe]
  | some x => simp [missingOrRoleNe]

theorem findOneActive_isSome {store : Store} {doctorId : ObjectId} {date : Int}
    {time : String} :
    (findOneActive store doctorId date time).isSome = true ↔
      ∃ a ∈ store, a.doctorId = doctorId ∧ a.appointmentDate = date
        ∧ a.appointmentTime = time ∧ (a.status = "pending" ∨ a.status = "confirmed") := by
  simp [findOneActive, List.find?_isSome]

theorem collides_eq_false {a b : Appointment} :
    collides a b = false ↔ a._id ≠ b._id ∧ ¬ (a.doctorId = b.doctorId
      ∧ a.appointmentDate = b.appointmentDate ∧ a.appointmentTime = b.appointmentTime) := by
  simp [collides]

theorem collides_comm (a b : Appointment) : collides a b = collides b a := by
  simp only [collides, eq_comm]

theorem findById_some {store : Store} {id : ObjectId} {a : Appointment}
    (h : findById store id = some a) : a ∈ store ∧ a._id = id := by
  unfold findById at h
  exact ⟨List.mem_of_find?_eq_some h, by simpa using List.find?_some h⟩

theorem create_indexes {store : Store} (nowSave : Int) (doc : Appointment)
    (h : IndexesHold store) : IndexesHold (create store nowSave doc).2 := by
  unfold create
  split_ifs with h1 h2 h3
  · exact h
  · exact h
  · exact h
  · simp only [IndexesHold, List.pairwise_append, List.pairwise_singleton, List.mem_singleton,
      true_and]
    refine ⟨h, ?_⟩
    intro a ha b hb
    subst hb
    simp only [List.any_eq_true, not_exists, not_and, Bool.not_eq_true] at h3
    exact h3 a ha

theorem save_indexes {store : Store} (nowSave : Int) (old doc : Appointment)
    (h : IndexesHold store) (hold : old ∈ store) (hid : doc._id = old._id)
    (hdoctor : doc.doctorId = old.doctorId) (hdate : doc.appointmentDate = old.appointmentDate)
    (htime : doc.appointmentTime = old.appointmentTime) :
    IndexesHold (save store nowSave doc).2 := by
  unfold save
  split_ifs with h1 h2
  · exact h
  · exact h
  · have hsymm : ∀ a b : Appointment, collides a b = false → collides b a = false :=
      fun a b hab => by rw [collides_comm]; exact hab
    have hself : ∀ a ∈ store, a._id = doc._id → a = old := by
      intro a ha haid
      by_contra hne
      have hc := List.Pairwise.forall (fun {x y} hxy => hsymm x y hxy) h ha hold hne
      rw [collides_eq_false] at hc
      exact hc.1 (haid.trans hid)
    simp only [IndexesHold, List.pairwise_map]
    refine List.Pairwise.imp_of_mem ?_ h
    intro a b ha hb hab
    rw [collides_eq_false] at hab
    by_cases hai : a._id = doc._id
    · have hbi : ¬ b._id = doc._id := fun hbi => hab.1 (hai.trans hbi.symm)
      have hao := hself a ha hai
      subst hao
      simp only [hai, hbi, if_true, if_false]
      rw [collides_eq_false]
      exact ⟨fun e => hbi e.symm, by rw [hdoctor, hdate, htime]; exact hab.2⟩
    · by_cases hbi : b._id = doc._id
      · have hbo := hself b hb hbi
        subst hbo
        simp only [hai, hbi, if_true, if_false]
        rw [collides_eq_false]
        exact ⟨hai, by rw [hdoctor, hdate, htime]; exact hab.2⟩
      · simp only [hai, hbi, if_false]
        rw [collides_eq_false]
        exact hab

theorem bookAppointment_indexes (users : List User) {store : Store} (now nowSave : Int)
    (newId : ObjectId) (data : AppointmentData) (h : IndexesHold store) :
    IndexesHold (bookAppointment users store now nowSave newId data).2 := by
  unfold bookAppointment
  split_ifs with h1 h2
  · exact h
  · exact h
  · split
    · exact h
    · split_ifs with h3 h4
      · exact h
      · exact h
      · exact create_indexes nowSave _ h

theorem updateAppointmentStatus_indexes {store : Store} (nowSave : Int)
    (appointmentId : ObjectId) (status : String) (userId : CallerId) (userRole : String)
    (cancellationReason : Option String) (h : IndexesHold store) :
    IndexesHold (updateAppointmentStatus store nowSave appointmentId status userId userRole
      cancellationReason).2 := by
  unfold updateAppointmentStatus
  split
  · exact h
  · rename_i appointment hfind
    have hmem := (findById_some hfind).1
    split_ifs with h1 h2 h3
    · exact h
    · exact h
    · exact save_indexes nowSave appointment _ h hmem rfl rfl rfl rfl
    · exact save_indexes nowSave appointment _ h hmem rfl rfl rfl rfl

theorem foldl_run_indexes (calls : List Call) :
    ∀ store : Store, IndexesHold store → IndexesHold (calls.foldl Call.run store) := by
  induction calls with
  | nil => intro store h; exact h
  | cons c rest ih =>
    intro store h
    rw [List.foldl_cons]
    apply ih
    cases c with
    | book users now nowSave newId data =>
      exact bookAppointment_indexes users now nowSave newId data h
    | update nowSave appointmentId status userId userRole cancellationReason =>
      exact updateAppointmentStatus_indexes nowSave appointmentId status userId userRole
        cancellationReason h

theorem activeAt_length_le_one {store : Store} (h : IndexesHold store) (doctorId : ObjectId)
    (date : Int) (time : String) : (activeAt store doctorId date time).length ≤ 1 := by
  have hp : (activeAt store doctorId date time).Pairwise
      (fun a b => collides a b = false) := List.Pairwise.filter _ h
  have hall : ∀ a ∈ activeAt store doctorId date time,
      a.doctorId = doctorId ∧ a.appointmentDate = date ∧ a.appointmentTime = time := by
    intro a ha
    have := (List.mem_filter.mp ha).2
    simp only [decide_eq_true_eq] at this
    exact ⟨this.1, this.2.1, this.2.2.1⟩
  match hl : activeAt store doctorId date time with
  | [] => simp
  | [_] => simp
  | a :: b :: rest =>
    exfalso
    rw [hl] at hp hall
    have hab := (List.pairwise_cons.mp hp).1 b (by simp)
    rw [collides_eq_false] at hab
    have ha := hall a (by simp)
    have hb := hall b (by simp)
    exact hab.2 ⟨ha.1.trans hb.1.symm, ha.2.1.trans hb.2.1.symm, ha.2.2.trans hb.2.2.symm⟩

theorem findOneActive_isSome_iff_activeAt {store : Store} {doctorId : ObjectId} {date : Int}
    {time : String} :
    (findOneActive store doctorId date time).isSome = true ↔
      activeAt store doctorId date time ≠ [] := by
  rw [findOneActive_isSome, ne_eq, activeAt, List.filter_eq_nil_iff]
  constructor
  · rintro ⟨a, ha, h⟩ hall
    exact hall a ha (by simpa using h)
  · intro h
    by_contra hno
    apply h
    intro a ha hdec
    exact hno ⟨a, ha, by simpa using hdec⟩

theorem slotMoment_ge {date : Int} {time : String} {m : Int}
    (h : slotMoment date time = some m) : date ≤ m := by
  unfold slotMoment at h
  cases hms : timeOfDayMillis time with
  | none => simp [hms] at h
  | some ms =>
    simp only [hms, Option.map_some', Option.some.injEq] at h
    have h0 : (0 : Int) ≤ ms := by
      unfold timeOfDayMillis at hms
      split at hms
      · split_ifs at hms
        simp only at hms
        split_ifs at hms
        simp only [Option.some.injEq] at hms
        rw [← hms]
        exact Int.ofNat_nonneg _
      · simp at hms
    omega

theorem invalidPaths_eq_nil {a : Appointment} :
    invalidPaths a = [] ↔ a.appointmentTime ≠ "" ∧ 15 ≤ a.duration ∧ a.status ∈ statusEnum
      ∧ (∀ r, a.reason = some r → jsLength r ≤ 500)
      ∧ (∀ c, a.cancelledBy = some c → c ∈ cancelledByEnum) := by
  unfold invalidPaths
  cases hr : a.reason <;> cases hc : a.cancelledBy <;>
    simp only [List.append_eq_nil, ite_eq_right_iff, ite_eq_left_iff, List.cons_ne_self,
      imp_false, not_lt, not_not, ne_eq, reduceCtorEq, Option.some.injEq, forall_eq',
      IsEmpty.forall_iff, implies_true, and_true, true_and, and_assoc]

theorem updateAppointmentStatus_outcome (store : Store) (nowSave : Int)
    (appointmentId : ObjectId) (status : String) (userId : CallerId) (userRole : String)
    (cancellationReason : Option String) :
    (∃ e, updateAppointmentStatus store nowSave appointmentId status userId userRole
        cancellationReason = (.error e, store))
      ∨ ∃ old a, findById store appointmentId = some old
          ∧ updateAppointmentStatus store nowSave appointmentId status userId userRole
              cancellationReason
            = (.ok a, store.map (fun b => if b._id = old._id then a else b))
          ∧ invalidPaths a = [] ∧ nowSave ≤ a.appointmentDate
          ∧ (¬ (status = "cancelled" ∧ truthy cancellationReason = true)
              ∧ a = { old with status := status }
            ∨ status = "cancelled" ∧ truthy cancellationReason = true
              ∧ a = { old with
                      status := status
                      cancelledBy := some userRole
                      cancellationReason := cancellationReason.map jsTrim }) := by
  unfold updateAppointmentStatus
  split
  · exact Or.inl ⟨_, rfl⟩
  · rename_i old hfind
    split_ifs with h1 h2 h3
    · exact Or.inl ⟨_, rfl⟩
    · exact Or.inl ⟨_, rfl⟩
    · unfold save
      split_ifs with h4 h5
      · exact Or.inl ⟨_, rfl⟩
      · exact Or.inl ⟨_, rfl⟩
      · refine Or.inr ⟨old, _, hfind, rfl, not_not.mp h4, ?_, Or.inr ⟨h3.1, h3.2, rfl⟩⟩
        simpa [preSaveRejects] using h5
    · unfold save
      split_ifs with h4 h5
      · exact Or.inl ⟨_, rfl⟩
      · exact Or.inl ⟨_, rfl⟩
      · refine Or.inr ⟨old, _, hfind, rfl, not_not.mp h4, ?_, Or.inl ⟨h3, rfl⟩⟩
        simpa [preSaveRejects] using h5

theorem updateAppointmentStatus_owner (store : Store) (nowSave : Int)
    (appointmentId : ObjectId) (status : String) (userId : CallerId) (userRole : String)
    (cancellationReason : Option String) (old : Appointment)
    (hfind : findById store appointmentId = some old)
    (howner : userRole = "patient" ∧ userId = .str old.patientId.toString
      ∨ userRole = "doctor" ∧ userId = .str old.doctorId.toString)
    (hvalid : invalidPaths old = []) (hstatus : status ∈ statusEnum)
    (hdate : nowSave ≤ old.appointmentDate) :
    ∃ a, (updateAppointmentStatus store nowSave appointmentId status userId userRole
        cancellationReason).1 = .ok a ∧ a.status = status := by
  have hguard1 : ¬ (userRole = "patient"
      ∧ strictNe old.patientId.toString userId = true) := by
    rcases howner with ⟨h, hu⟩ | ⟨h, _⟩
    · subst hu; simp [strictNe]
    · subst h; simp
  have hguard2 : ¬ (userRole = "doctor"
      ∧ strictNe old.doctorId.toString userId = true) := by
    rcases howner with ⟨h, _⟩ | ⟨h, hu⟩
    · subst h; simp
    · subst hu; simp [strictNe]
  have hrole : userRole ∈ cancelledByEnum := by
    rcases howner with ⟨h, _⟩ | ⟨h, _⟩ <;> subst h <;> simp [cancelledByEnum]
  rw [invalidPaths_eq_nil] at hvalid
  obtain ⟨ht, hdur, -, hreason, hcby⟩ := hvalid
  have hpre : ∀ a : Appointment, a.appointmentDate = old.appointmentDate →
      preSaveRejects nowSave a = false := by
    intro a ha
    simp only [preSaveRejects, decide_eq_false_iff_not, not_lt, ha]
    exact hdate
  unfold updateAppointmentStatus
  simp only [hfind, hguard1, hguard2, if_false]
  split_ifs with hc
  · have hv : invalidPaths { old with
        status := status
        cancelledBy := some userRole
        cancellationReason := cancellationReason.map jsTrim } = [] := by
      rw [invalidPaths_eq_nil]
      refine ⟨ht, hdur, hstatus, hreason, ?_⟩
      intro c hcc
      simp only [Option.some.injEq] at hcc
      exact hcc ▸ hrole
    refine ⟨{ old with
        status := status
        cancelledBy := some userRole
        cancellationReason := cancellationReason.map jsTrim }, ?_, rfl⟩
    simp [save, hv, hpre]
  · have hv : invalidPaths { old with status := status } = [] := by
      rw [invalidPaths_eq_nil]
      exact ⟨ht, hdur, hstatus, hreason, hcby⟩
    refine ⟨{ old with status := status }, ?_, rfl⟩
    simp [save, hv, hpre]

theorem bookAppointment_ok {users : List User} {store : Store} {now nowSave : Int}
    {newId : ObjectId} {data : AppointmentData} {a : Appointment} {store2 : Store}
    (hok : bookAppointment users store now nowSave newId data = (.ok a, store2)) :
    ∃ date, data.appointmentDate = some date
      ∧ a = { _id := newId
              patientId := data.patientId
              doctorId := data.doctorId
              appointmentDate := date
              appointmentTime := data.appointmentTime
              duration :=
                match data.duration with
                | none => 30
                | some n => if n = 0 then 30 else n
              reason := data.reason.map jsTrim
              notes := data.notes.map jsTrim
              status := "pending"
              cancelledBy := none
              cancellationReason := none }
      ∧ store2 = store ++ [a] ∧ (∀ b ∈ store, collides b a = false)
      ∧ invalidPaths a = [] ∧ now ≤ date ∧ nowSave ≤ date := by
  unfold bookAppointment at hok
  split_ifs at hok with h1 h2
  · simp at hok
  · simp at hok
  · split at hok
    · simp at hok
    · rename_i date hdate
      split_ifs at hok with h3 h4
      · simp at hok
      · simp at hok
      · unfold create at hok
        split_ifs at hok with h5 h6 h7
        · simp at hok
        · simp at hok
        · simp at hok
        · simp only [Prod.mk.injEq, Except.ok.injEq] at hok
          obtain ⟨ha, hs⟩ := hok
          refine ⟨date, hdate, ha.symm, ?_, ?_, ?_, not_lt.mp h4, ?_⟩
          · rw [← hs, ← ha]
          · rw [← ha]
            simpa using h7
          · rw [← ha]
            exact not_not.mp h5
          · simpa [preSaveRejects] using h6

theorem findById_append_new {store : Store} {a : Appointment}
    (h : ∀ b ∈ store, collides b a = false) : findById (store ++ [a]) a._id = some a := by
  unfold findById
  rw [List.find?_append]
  have hnone : List.find? (fun b => decide (b._id = a._id)) store = none := by
    rw [List.find?_eq_none]
    intro b hb
    have := (collides_eq_false.mp (h b hb)).1
    simpa using this
  simp [hnone]

theorem create_error_store {store : Store} {nowSave : Int} {doc : Appointment} {e : Err}
    (h : (create store nowSave doc).1 = .error e) : (create store nowSave doc).2 = store := by
  unfold create at h ⊢
  split_ifs at h ⊢ with h1 h2 h3
  · rfl
  · rfl
  · rfl

theorem bookAppointment_error_store {users : List User} {store : Store} {now nowSave : Int}
    {newId : ObjectId} {data : AppointmentData} {e : Err}
    (h : (bookAppointment users store now nowSave newId data).1 = .error e) :
    (bookAppointment users store now nowSave newId data).2 = store := by
  cases hd : data.appointmentDate with
  | none =>
    unfold bookAppointment
    simp only [hd]
    split_ifs <;> rfl
  | some date =>
    unfold bookAppointment at h ⊢
    simp only [hd] at h ⊢
    split_ifs at h ⊢ with h1 h2 h3 h4
    · rfl
    · rfl
    · rfl
    · rfl
    · exact create_error_store h

theorem bookAppointment_used_slot_fails {users : List User} {store : Store}
    {now nowSave : Int} {newId : ObjectId} {data : AppointmentData} {date : Int}
    (hdate : data.appointmentDate = some date)
    (hused : ∃ b ∈ store, b.doctorId = data.doctorId ∧ b.appointmentDate = date
      ∧ b.appointmentTime = data.appointmentTime) :
    ∃ e, bookAppointment users store now nowSave newId data = (.error e, store) := by
  rcases hres : bookAppointment users store now nowSave newId data with ⟨r, s2⟩
  cases r with
  | error e =>
    have hs := bookAppointment_error_store (e := e) (by rw [hres])
    rw [hres] at hs
    exact ⟨e, by rw [← hs]⟩
  | ok a =>
    exfalso
    obtain ⟨date2, hdate2, ha, -, hfresh, -, -, -⟩ := bookAppointment_ok hres
    rw [hdate] at hdate2
    simp only [Option.some.injEq] at hdate2
    subst hdate2
    obtain ⟨b, hb, h1, h2, h3⟩ := hused
    have := (collides_eq_false.mp (hfresh b hb)).2
    apply this
    rw [ha]
    exact ⟨h1, h2, h3⟩

theorem controller_update_refused (store : Store) (nowSave : Int) (user : User)
    (appointment : Appointment) (status : String) (cancellationReason : Option String)
    (hrole : user.role = "patient" ∨ user.role = "doctor")
    (hfind : findById store appointment._id = some appointment) (hstatus : status ≠ "") :
    AppointmentController.updateAppointmentStatus store nowSave
        (AppointmentController.attachUser user appointment._id (some status)
          cancellationReason)
      = (AppointmentController.sendError 400
          (some "Unauthorized to update this appointment"), store) := by
  have hsvc : updateAppointmentStatus store nowSave appointment._id status (.oid user._id)
      user.role cancellationReason = (.error .unauthorized, store) := by
    rcases hrole with h | h <;> simp [updateAppointmentStatus, hfind, h, strictNe]
  simp [AppointmentController.updateAppointmentStatus, AppointmentController.attachUser,
    hstatus, hsvc, Err.message]

theorem findById_eq_none {users : List User} {id : ObjectId} :
    User.findById users id = none ↔ ∀ u ∈ users, u._id ≠ id := by
  simp [User.findById, List.find?_eq_none]

theorem missingOrRoleNe_eq_true {u : Option User} {r : String} :
    missingOrRoleNe u r = true ↔ u = none ∨ ∃ x, u = some x ∧ x.role ≠ r := by
  cases u with
  | none => simp [missingOrRoleNe]
  | some x => simp [missingOrRoleNe]

theorem storeAfter_append (calls : List Call) (c : Call) :
    storeAfter (calls ++ [c]) = Call.run (storeAfter calls) c := by
  simp [storeAfter, List.foldl_append]

theorem bookAppointment_mem {users : List User} {store : Store} {now nowSave : Int}
    {newId : ObjectId} {data : AppointmentData} {a : Appointment}
    (h : a ∈ (bookAppointment users store now nowSave newId data).2) :
    a ∈ store ∨ (a.status = "pending" ∧ a.cancelledBy = none ∧ a.cancellationReason = none) := by
  rcases hres : bookAppointment users store now nowSave newId data with ⟨r, s2⟩
  rw [hres] at h
  cases r with
  | error e =>
    have hs := bookAppointment_error_store (e := e) (by rw [hres])
    rw [hres] at hs
    simp only at hs h
    rw [hs] at h
    exact Or.inl h
  | ok a0 =>
    obtain ⟨date, -, ha0, hs, -, -, -, -⟩ := bookAppointment_ok hres
    simp only at h
    rw [hs, List.mem_append, List.mem_singleton] at h
    rcases h with h | h
    · exact Or.inl h
    · refine Or.inr ?_
      rw [h, ha0]
      exact ⟨rfl, rfl, rfl⟩

theorem updateAppointmentStatus_mem {store : Store} {nowSave : Int}
    {appointmentId : ObjectId} {status : String} {userId : CallerId} {userRole : String}
    {cancellationReason : Option String} {a : Appointment}
    (h : a ∈ (updateAppointmentStatus store nowSave appointmentId status userId userRole
      cancellationReason).2) :
    a ∈ store ∨ ∃ old ∈ store, old._id = appointmentId ∧ a._id = appointmentId
      ∧ (a.cancelledBy = old.cancelledBy ∧ a.cancellationReason = old.cancellationReason
        ∨ status = "cancelled" ∧ ∃ r, cancellationReason = some r ∧ r ≠ ""
            ∧ a.status = "cancelled" ∧ a.cancelledBy = some userRole
            ∧ a.cancellationReason = some (jsTrim r)) := by
  rcases updateAppointmentStatus_outcome store nowSave appointmentId status userId userRole
      cancellationReason with ⟨e, he⟩ | ⟨old, a2, hfind, hres, -, -, hshape⟩
  · rw [he] at h
    exact Or.inl h
  · obtain ⟨hold, hid⟩ := findById_some hfind
    rw [hres] at h
    simp only [List.mem_map] at h
    obtain ⟨b, hb, hab⟩ := h
    by_cases hbid : b._id = old._id
    · rw [if_pos hbid] at hab
      subst hab
      refine Or.inr ⟨old, hold, hid, ?_, ?_⟩
      · rcases hshape with ⟨-, h2⟩ | ⟨-, -, h2⟩ <;> rw [h2] <;> exact hid
      · rcases hshape with ⟨-, h2⟩ | ⟨hs, ht, h2⟩
        · rw [h2]
          exact Or.inl ⟨rfl, rfl⟩
        · refine Or.inr ⟨hs, ?_⟩
          cases hr : cancellationReason with
          | none => simp [hr, truthy] at ht
          | some r =>
            refine ⟨r, rfl, ?_, ?_, ?_, ?_⟩
            · simpa [hr, truthy] using ht
            · rw [h2]; exact hs
            · rw [h2]
            · rw [h2, hr]; rfl
    · rw [if_neg hbid] at hab
      subst hab
      exact Or.inl hb

theorem char_eq_of_toNat {c d : Char} (h : c.toNat = d.toNat) : c = d :=
  Char.ext (UInt32.eq_of_val_eq (Fin.eq_of_val_eq h))

theorem codePointsLt_iff_lex (x y : List Char) :
    codePointsLt x y = true ↔ List.Lex (· < ·) x y := by
  induction x generalizing y with
  | nil => cases y <;> simp [codePointsLt, List.Lex.nil]
  | cons c cs ih =>
    cases y with
    | nil => simp [codePointsLt]
    | cons d ds =>
      simp only [codePointsLt, Bool.or_eq_true, decide_eq_true_eq, Bool.and_eq_true, ih]
      constructor
      · rintro (h | ⟨h1, h2⟩)
        · exact List.Lex.rel h
        · rw [char_eq_of_toNat h1]
          exact List.Lex.cons h2
      · intro h
        cases h with
        | cons h => exact Or.inr ⟨rfl, h⟩
        | rel h => exact Or.inl h

theorem codePointsLt_iff (a b : String) : codePointsLt a.data b.data = true ↔ a < b := by
  rw [String.lt_iff_toList_lt, codePointsLt_iff_lex]
  exact Iff.rfl

theorem sortsBefore_iff (a b : Appointment) :
    sortsBefore a b = true ↔ b.appointmentDate < a.appointmentDate
      ∨ (a.appointmentDate = b.appointmentDate ∧ b.appointmentTime ≤ a.appointmentTime) := by
  have h : codePointsLt a.appointmentTime.data b.appointmentTime.data = false
      ↔ b.appointmentTime ≤ a.appointmentTime := by
    rw [← not_lt, ← codePointsLt_iff, Bool.not_eq_true]
  simp only [sortsBefore, Bool.or_eq_true, decide_eq_true_eq, Bool.and_eq_true,
    Bool.not_eq_true', h]

theorem sortsBefore_total (a b : Appointment) :
    sortsBefore a b = true ∨ sortsBefore b a = true := by
  simp only [sortsBefore_iff]
  rcases lt_trichotomy a.appointmentDate b.appointmentDate with h | h | h
  · exact Or.inr (Or.inl h)
  · rcases le_total a.appointmentTime b.appointmentTime with ht | ht
    · exact Or.inr (Or.inr ⟨h.symm, ht⟩)
    · exact Or.inl (Or.inr ⟨h, ht⟩)
  · exact Or.inl (Or.inl h)

theorem sortsBefore_trans {a b c : Appointment} (hab : sortsBefore a b = true)
    (hbc : sortsBefore b c = true) : sortsBefore a c = true := by
  simp only [sortsBefore_iff] at *
  rcases hab with h1 | ⟨h1, t1⟩ <;> rcases hbc with h2 | ⟨h2, t2⟩
  · exact Or.inl (lt_trans h2 h1)
  · exact Or.inl (h2 ▸ h1)
  · exact Or.inl (h1 ▸ h2)
  · exact Or.inr ⟨h1.trans h2, le_trans t2 t1⟩

theorem isDigit_bounds {c : Char} (h : c.isDigit = true) : 48 ≤ c.toNat ∧ c.toNat ≤ 57 := by
  simp only [Char.isDigit, Bool.and_eq_true, decide_eq_true_eq] at h
  exact ⟨h.1, h.2⟩

theorem timeOfDayMillis_some {s : String} {x : Int} (h : timeOfDayMillis s = some x) :
    ∃ h1 h2 m1 m2 : Char, s.data = [h1, h2, ':', m1, m2]
      ∧ (48 ≤ h1.toNat ∧ h1.toNat ≤ 57) ∧ (48 ≤ h2.toNat ∧ h2.toNat ≤ 57)
      ∧ (48 ≤ m1.toNat ∧ m1.toNat ≤ 57) ∧ (48 ≤ m2.toNat ∧ m2.toNat ≤ 57)
      ∧ (h1.toNat - 48) * 10 + (h2.toNat - 48) < 24
      ∧ (m1.toNat - 48) * 10 + (m2.toNat - 48) < 60
      ∧ x = ((((h1.toNat - 48) * 10 + (h2.toNat - 48)) * 60
              + ((m1.toNat - 48) * 10 + (m2.toNat - 48))) * 60000 : Nat) := by
  unfold timeOfDayMillis at h
  split at h
  · rename_i h1 h2 m1 m2 hdata
    split_ifs at h with hd
    simp only at h
    split_ifs at h with hr
    simp only [Option.some.injEq] at h
    exact ⟨h1, h2, m1, m2, hdata, isDigit_bounds hd.1, isDigit_bounds hd.2.1,
      isDigit_bounds hd.2.2.1, isDigit_bounds hd.2.2.2, hr.1, hr.2, h.symm⟩
  · simp at h

theorem timeOfDay_order {s t : String} {x y : Int} (hs : timeOfDayMillis s = some x)
    (ht : timeOfDayMillis t = some y) : s ≤ t ↔ x ≤ y := by
  obtain ⟨a1, a2, a3, a4, hsd, ha1, ha2, ha3, ha4, -, ham, rfl⟩ := timeOfDayMillis_some hs
  obtain ⟨b1, b2, b3, b4, htd, hb1, hb2, hb3, hb4, -, hbm, rfl⟩ := timeOfDayMillis_some ht
  rw [← not_lt, ← codePointsLt_iff, htd, hsd]
  simp only [codePointsLt, Bool.or_eq_true, decide_eq_true_eq, Bool.and_eq_true, Bool.or_false,
    Bool.and_false, lt_self_iff_false, decide_False, Bool.false_or, decide_True, Bool.true_and]
  omega
theorem insertionSort_sortsBefore (l : List Appointment) :
    (l.insertionSort (fun a b => sortsBefore a b = true)).Perm l
      ∧ (l.insertionSort (fun a b => sortsBefore a b = true)).Pairwise
          (fun a b => b.appointmentDate ≤ a.appointmentDate
            ∧ (a.appointmentDate = b.appointmentDate →
                b.appointmentTime ≤ a.appointmentTime
                  ∧ ∀ x y, timeOfDayMillis a.appointmentTime = some x →
                      timeOfDayMillis b.appointmentTime = some y → y ≤ x)) := by
  haveI : IsTotal Appointment (fun a b => sortsBefore a b = true) := ⟨sortsBefore_total⟩
  haveI : IsTrans Appointment (fun a b => sortsBefore a b = true) :=
    ⟨fun _ _ _ => sortsBefore_trans⟩
  refine ⟨List.perm_insertionSort _ l, ?_⟩
  have hsorted := List.sorted_insertionSort (fun a b => sortsBefore a b = true) l
  refine List.Pairwise.imp ?_ hsorted
  intro a b hab
  rw [sortsBefore_iff] at hab
  rcases hab with h | ⟨h, ht⟩
  · exact ⟨le_of_lt h, fun e => absurd h (by rw [e]; exact lt_irrefl _)⟩
  · exact ⟨le_of_eq h.symm, fun _ => ⟨ht, fun x y hx hy => (timeOfDay_order hy hx).mp ht⟩⟩

section Registration

open AuthValidation

theorem nonSpace_matches (y : List CharClass) :
    y ∈ nonSpace.matches' ↔ ∃ k, y = [k] ∧ k ≠ .space := by
  simp only [nonSpace, RegularExpression.matches'_add, RegularExpression.matches'_char,
    Language.mem_add]
  constructor
  · rintro ((h | h) | h) <;> exact ⟨_, h, by decide⟩
  · rintro ⟨k, rfl, hk⟩
    cases k
    · exact absurd rfl hk
    · exact Or.inl (Or.inl rfl)
    · exact Or.inl (Or.inr rfl)
    · exact Or.inr rfl

theorem flatten_map_singleton {α : Type} (l : List α) :
    (l.map (fun c => [c])).flatten = l := by
  induction l with
  | nil => rfl
  | cons r rs ih => simp [List.flatten, ih]

theorem map_eq_singleton {α β : Type} {f : α → β} {l : List α} {k : β}
    (h : l.map f = [k]) : ∃ a, l = [a] ∧ f a = k := by
  rw [List.map_eq_cons_iff] at h
  obtain ⟨a, l1, rfl, hfa, hl1⟩ := h
  rw [List.map_eq_nil_iff] at hl1
  exact ⟨a, by rw [hl1], hfa⟩

theorem nonSpaces_matches (y : List CharClass) :
    y ∈ nonSpaces.matches' ↔ y ≠ [] ∧ ∀ k ∈ y, k ≠ .space := by
  simp only [nonSpaces, RegularExpression.matches'_mul, RegularExpression.matches'_star,
    Language.mem_mul, Language.mem_kstar, nonSpace_matches]
  constructor
  · rintro ⟨a, ⟨k, rfl, hk⟩, b, ⟨L, rfl, hL⟩, rfl⟩
    refine ⟨by simp, ?_⟩
    intro x hx
    simp only [List.singleton_append, List.mem_cons, List.mem_flatten] at hx
    rcases hx with rfl | ⟨l, hl, hxl⟩
    · exact hk
    · obtain ⟨k2, rfl, hk2⟩ := hL l hl
      simp only [List.mem_singleton] at hxl
      exact hxl ▸ hk2
  · rintro ⟨hne, hall⟩
    cases y with
    | nil => exact absurd rfl hne
    | cons k rest =>
      refine ⟨[k], ⟨k, rfl, hall k (by simp)⟩, rest, ⟨rest.map (fun c => [c]), ?_, ?_⟩, rfl⟩
      · exact (flatten_map_singleton rest).symm
      · intro l hl
        simp only [List.mem_map] at hl
        obtain ⟨c, hc, rfl⟩ := hl
        exact ⟨c, rfl, hall c (by simp [hc])⟩

theorem charClass_ne_space {c : Char} : charClass c ≠ .space ↔ isJsWhiteSpace c = false := by
  unfold charClass
  split_ifs <;> simp_all

theorem charClass_atSign {c : Char} : charClass c = .atSign ↔ c = '@' := by
  unfold charClass
  constructor
  · intro h
    split_ifs at h with h1 h2 h3
    exact h2
  · rintro rfl
    decide

theorem charClass_dot {c : Char} : charClass c = .dot ↔ c = '.' := by
  unfold charClass
  constructor
  · intro h
    split_ifs at h with h1 h2 h3
    exact h3
  · rintro rfl
    decide

theorem nonSpaces_map (a : List Char) :
    a.map charClass ∈ nonSpaces.matches' ↔ a ≠ [] ∧ ∀ x ∈ a, isJsWhiteSpace x = false := by
  rw [nonSpaces_matches]
  simp [charClass_ne_space]

theorem emailRegexTest_iff (email : String) : emailRegexTest email = true ↔ EmailShape email := by
  unfold emailRegexTest EmailShape
  rw [RegularExpression.rmatch_iff_matches']
  simp only [emailRegex, RegularExpression.matches'_mul, RegularExpression.matches'_char,
    Language.mem_mul]
  constructor
  · rintro ⟨p, ⟨q, ⟨r, ⟨s, hs, t, ht, rfl⟩, u, hu, rfl⟩, v, hv, rfl⟩, w, hw, hx⟩
    have ht2 : t = [CharClass.atSign] := ht
    have hv2 : v = [CharClass.dot] := hv
    subst ht2 hv2
    have hx2 := hx.symm
    rw [List.map_eq_append_iff] at hx2
    obtain ⟨l1, c, hl, h1, hc⟩ := hx2
    rw [List.map_eq_append_iff] at h1
    obtain ⟨l2, dd, hl1, h2, hd⟩ := h1
    rw [List.map_eq_append_iff] at h2
    obtain ⟨l3, b, hl2, h3, hb⟩ := h2
    rw [List.map_eq_append_iff] at h3
    obtain ⟨a, aa, hl3, ha, haa⟩ := h3
    obtain ⟨d0, rfl, hd0⟩ := map_eq_singleton hd
    obtain ⟨a0, rfl, ha0⟩ := map_eq_singleton haa
    rw [charClass_dot] at hd0
    rw [charClass_atSign] at ha0
    subst hd0 ha0
    rw [← ha] at hs
    rw [← hb] at hu
    rw [← hc] at hw
    rw [nonSpaces_map] at hs hu hw
    refine ⟨a, b, c, ?_, hs.1, hu.1, hw.1, hs.2, hu.2, hw.2⟩
    rw [hl, hl1, hl2, hl3]
    simp
  · rintro ⟨a, b, c, hdata, ha, hb, hc, ha2, hb2, hc2⟩
    refine ⟨_, ⟨_, ⟨_, ⟨a.map charClass, (nonSpaces_map a).mpr ⟨ha, ha2⟩, [.atSign], rfl, rfl⟩,
      b.map charClass, (nonSpaces_map b).mpr ⟨hb, hb2⟩, rfl⟩, [.dot], rfl, rfl⟩,
      c.map charClass, (nonSpaces_map c).mpr ⟨hc, hc2⟩, ?_⟩
    rw [hdata]
    simp [charClass_atSign.mpr rfl, charClass_dot.mpr rfl]
end Registration

section Accounts

open AuthService JwtUtil UserModel

theorem char_toLower_idem (c : Char) : c.toLower.toLower = c.toLower := by
  by_cases h : c.toNat ≥ 65 ∧ c.toNat ≤ 90
  · have hc : c = Char.ofNat c.toNat := (Char.ofNat_toNat c).symm
    obtain ⟨h1, h2⟩ := h
    generalize c.toNat = n at *
    subst hc
    interval_cases n <;> rfl
  · simp [Char.toLower, h]

theorem toLowerCase_idem (s : String) : toLowerCase (toLowerCase s) = toLowerCase s := by
  unfold toLowerCase
  simp only [List.map_map]
  congr 1
  exact List.map_congr_left (fun c _ => char_toLower_idem c)

theorem findOneByEmail_eq_none {users : List User} {email : String} :
    findOneByEmail users email = none ↔ ∀ u ∈ users, u.email ≠ toLowerCase email := by
  simp [findOneByEmail, castEmail, List.find?_eq_none]

theorem findOneByEmail_some {users : List User} {email : String} {u : User}
    (h : findOneByEmail users email = some u) : u ∈ users ∧ u.email = toLowerCase email := by
  unfold findOneByEmail castEmail at h
  exact ⟨List.mem_of_find?_eq_some h, by simpa using List.find?_some h⟩

theorem register_store (schema : UserSchema) (env : EnvConfig) (users : List User)
    (now : Int) (newId : ObjectId) (userData : UserData) :
    (register schema env users now newId userData).2 = users
      ∨ ((∀ u ∈ users, u.email ≠ toLowerCase userData.email)
        ∧ (register schema env users now newId userData).2
          = users ++ [document schema newId userData]) := by
  unfold register
  cases hfind : findOneByEmail users userData.email with
  | some u => exact Or.inl rfl
  | none =>
    simp only
    unfold UserModel.create
    split_ifs with h1 h2
    · exact Or.inl rfl
    · exact Or.inl rfl
    · exact Or.inr ⟨findOneByEmail_eq_none.mp hfind, rfl⟩

theorem register_emailsUnique (schema : UserSchema) (env : EnvConfig) {users : List User}
    (now : Int) (newId : ObjectId) (userData : UserData) (h : EmailsUnique users) :
    EmailsUnique (register schema env users now newId userData).2 := by
  rcases register_store schema env users now newId userData with hs | ⟨hnew, hs⟩
  · rw [hs]
    exact h
  · rw [hs]
    refine ⟨?_, ?_⟩
    · intro u hu
      rw [List.mem_append, List.mem_singleton] at hu
      rcases hu with hu | hu
      · exact h.1 u hu
      · rw [hu]
        exact toLowerCase_idem userData.email
    · rw [List.pairwise_append]
      refine ⟨h.2, List.pairwise_singleton _ _, ?_⟩
      intro u hu v hv
      rw [List.mem_singleton] at hv
      rw [hv]
      exact hnew u hu

theorem usersAfter_emailsUnique (schema : UserSchema) (env : EnvConfig)
    (regs : List Registration) : EmailsUnique (usersAfter schema env regs) := by
  have hgen : ∀ users : List User, EmailsUnique users →
      EmailsUnique (regs.foldl (fun users r =>
        (register schema env users r.now r.newId r.userData).2) users) := by
    induction regs with
    | nil => intro users h; exact h
    | cons r rest ih =>
      intro users h
      rw [List.foldl_cons]
      exact ih _ (register_emailsUnique schema env r.now r.newId r.userData h)
  exact hgen [] ⟨fun _ hu => absurd hu (List.not_mem_nil _), List.Pairwise.nil⟩

end Accounts

section Middleware

open AuthMiddleware PatientService

theorem startsWithChars_iff (s p : List Char) :
    startsWithChars s p = true ↔ ∃ r, s = p ++ r := by
  induction p generalizing s with
  | nil => cases s <;> simp [startsWithChars]
  | cons q qs ih =>
    cases s with
    | nil => simp [startsWithChars]
    | cons c cs =>
      simp only [startsWithChars, Bool.and_eq_true, decide_eq_true_eq, ih, List.cons_append,
        List.cons.injEq]
      constructor
      · rintro ⟨rfl, r, rfl⟩
        exact ⟨r, rfl, rfl⟩
      · rintro ⟨r, rfl, rfl⟩
        exact ⟨rfl, r, rfl⟩

theorem bearer_header_iff (authHeader : String) :
    ¬ (authHeader = "" ∨ startsWithChars authHeader.data "Bearer ".data = false)
      ↔ ∃ text : String, authHeader = "Bearer " ++ text := by
  constructor
  · intro h
    have h2 : startsWithChars authHeader.data "Bearer ".data = true := by
      by_contra hc
      exact h (Or.inr (by simpa using hc))
    obtain ⟨r, hr⟩ := (startsWithChars_iff _ _).mp h2
    refine ⟨String.mk r, ?_⟩
    apply String.ext
    rw [hr, String.data_append]
  · rintro ⟨text, rfl⟩
    intro h
    rcases h with h | h
    · have := congrArg String.length h
      simp only [String.length_append] at this
      have h7 : ("Bearer " : String).length = 7 := by decide
      have h0 : ("" : String).length = 0 := by decide
      omega
    · have h2 : startsWithChars ("Bearer " ++ text).data "Bearer ".data = true :=
        (startsWithChars_iff _ _).mpr ⟨text.data, by rw [String.data_append]⟩
      rw [h2] at h
      exact Bool.noConfusion h

theorem bearer_text (text : String) :
    String.mk (("Bearer " ++ text).data.drop 7) = text := by
  apply String.ext
  rw [String.data_append]
  rfl

theorem updateFirst_forall₂ (userId : ObjectId) (f : User → User) (users : List User) :
    List.Forall₂ (fun u v => v = u ∨ (u._id = userId ∧ v = f u)) users
      (updateFirst userId f users) := by
  induction users with
  | nil => exact List.Forall₂.nil
  | cons u us ih =>
    unfold updateFirst
    split_ifs with h
    · exact List.Forall₂.cons (Or.inr ⟨h, rfl⟩)
        (List.forall₂_same.mpr (fun _ _ => Or.inl rfl))
    · exact List.Forall₂.cons (Or.inl rfl) ih

theorem applyAllowed_allowedChange (updateData : UpdateData) (u : User) :
    AllowedChange updateData u (applyAllowed updateData u) := by
  refine ⟨rfl, rfl, rfl, rfl, rfl, ?_, ?_, ?_, ?_, ?_, ?_, ?_, ?_, ?_, ?_⟩
  all_goals intros
  all_goals simp [applyAllowed, *]

end Middleware

section Doctors

open DoctorModel DoctorService

theorem doctor_create_store (doctors : List Doctor) (now : Int) (newId userId : ObjectId)
    (data : DoctorData) :
    ((∃ e, DoctorModel.create doctors now newId userId data = (.error e, doctors))
      ∨ ((∀ d ∈ doctors, d._id ≠ newId ∧ d.userId ≠ userId)
        ∧ DoctorModel.create doctors now newId userId data
          = (.ok (document now newId userId data),
              doctors ++ [document now newId userId data]))) := by
  unfold DoctorModel.create
  split_ifs with h1 h2
  · exact Or.inl ⟨_, rfl⟩
  · exact Or.inl ⟨_, rfl⟩
  · refine Or.inr ⟨?_, rfl⟩
    intro d hd
    simp only [List.any_eq_true, decide_eq_true_eq, not_exists, not_and, not_or] at h2
    exact h2 d hd

theorem createProfile_store (users : List User) (doctors : List Doctor) (now : Int)
    (newId userId : ObjectId) (doctorData : DoctorData) :
    ((∃ e, createProfile users doctors now newId userId doctorData = (.error e, doctors))
      ∨ ∃ owner, (doctorData.userId = some owner ∨ doctorData.userId = none ∧ owner = userId)
          ∧ (∀ d ∈ doctors, d._id ≠ newId ∧ d.userId ≠ owner)
          ∧ createProfile users doctors now newId userId doctorData
            = (.ok (document now newId owner doctorData),
                doctors ++ [document now newId owner doctorData])) := by
  unfold createProfile
  split
  · exact Or.inl ⟨_, rfl⟩
  · split_ifs with h1
    · exact Or.inl ⟨_, rfl⟩
    · split
      · exact Or.inl ⟨_, rfl⟩
      · cases hown : doctorData.userId with
        | none =>
          rcases doctor_create_store doctors now newId userId doctorData with h | ⟨h1, h2⟩
          · exact Or.inl h
          · exact Or.inr ⟨userId, Or.inr ⟨rfl, rfl⟩, h1, h2⟩
        | some own =>
          rcases doctor_create_store doctors now newId own doctorData with h | ⟨h1, h2⟩
          · exact Or.inl h
          · exact Or.inr ⟨own, Or.inl rfl, h1, h2⟩

theorem profilesAfter_unique (users : List User) (calls : List ProfileCall) :
    (profilesAfter users calls).Pairwise (fun a b => a.userId ≠ b.userId) := by
  have hgen : ∀ doctors : List Doctor, doctors.Pairwise (fun a b => a.userId ≠ b.userId) →
      (calls.foldl (fun doctors c =>
        (createProfile users doctors c.now c.newId c.userId c.doctorData).2) doctors).Pairwise
        (fun a b => a.userId ≠ b.userId) := by
    induction calls with
    | nil => intro doctors h; exact h
    | cons c rest ih =>
      intro doctors h
      rw [List.foldl_cons]
      apply ih
      rcases createProfile_store users doctors c.now c.newId c.userId c.doctorData with
        ⟨e, he⟩ | ⟨owner, -, hfresh, hres⟩
      · rw [he]
        exact h
      · rw [hres]
        simp only [List.pairwise_append, List.pairwise_singleton, List.mem_singleton, true_and]
        refine ⟨h, ?_⟩
        intro a ha b hb
        rw [hb]
        exact (hfresh a ha).2
  exact hgen [] List.Pairwise.nil

end Doctors

section Reports

open ReportService

theorem symptomLabels_nodup : (symptomKeywords.map (fun kv => kv.2)).Nodup := by
  decide

theorem symptomsOf_nodup (text : String) : (symptomsOf text).Nodup :=
  List.Nodup.sublist (List.Sublist.map _ (List.filter_sublist _)) symptomLabels_nodup

theorem uniqueInOrder_of_nodup {l : List String} (h : l.Nodup) : uniqueInOrder l = l := by
  induction l with
  | nil => rfl
  | cons x xs ih =>
    rw [List.nodup_cons] at h
    simp only [uniqueInOrder, ih h.2]
    congr 1
    rw [List.filter_eq_self]
    intro y hy
    simp only [ne_eq, decide_not, Bool.not_eq_eq_eq_not, Bool.not_true, decide_eq_false_iff_not]
    rintro rfl
    exact h.1 hy

theorem mem_symptomsOf (text : String) {kv : String × String} (hkv : kv ∈ symptomKeywords) :
    kv.2 ∈ symptomsOf text ↔ includesChars text.data kv.1.data = true := by
  simp only [symptomsOf, List.mem_map, List.mem_filter]
  constructor
  · rintro ⟨a, ⟨ha, hp⟩, he⟩
    have := List.inj_on_of_nodup_map symptomLabels_nodup ha hkv he
    rw [← this]
    exact hp
  · intro hp
    exact ⟨kv, ⟨hkv, hp⟩, rfl⟩

theorem length_symptomsOf (text : String) :
    (symptomsOf text).length = distinctSymptoms text := by
  unfold distinctSymptoms
  rw [List.toFinset_card_of_nodup]
  · rfl
  · exact symptomsOf_nodup text

end Reports

end Lemmas

section Claims

open AppointmentModel AppointmentService

/-- C1: in every store reached from the empty store by a sequence of `bookAppointment`
and `updateAppointmentStatus` calls, for every doctor, date and time at most one
appointment has status pending or confirmed. -/
theorem slot_uniqueness (calls : List Call) (doctorId : ObjectId) (date : Int)
    (time : String) : (activeAt (storeAfter calls) doctorId date time).length ≤ 1 :=
  activeAt_length_le_one (foldl_run_indexes calls [] List.Pairwise.nil) doctorId date time

/-- C2: when the patient and the doctor of a booking request are valid and the store
holds an appointment of that doctor at that date and time whose status is pending or
confirmed, `bookAppointment` fails with the error whose message is
'This time slot is already booked' and returns the store as it was. -/
theorem bookAppointment_slot_taken (users : List User) (store : Store) (now nowSave : Int)
    (newId : ObjectId) (data : AppointmentData) (date : Int)
    (hpatient : ∃ u, User.findById users data.patientId = some u ∧ u.role = "patient")
    (hdoctor : ∃ u, User.findById users data.doctorId = some u ∧ u.role = "doctor")
    (hdate : data.appointmentDate = some date)
    (hbusy : ∃ a ∈ store, a.doctorId = data.doctorId ∧ a.appointmentDate = date
      ∧ a.appointmentTime = data.appointmentTime
      ∧ (a.status = "pending" ∨ a.status = "confirmed")) :
    bookAppointment users store now nowSave newId data = (.error .slotAlreadyBooked, store)
      ∧ Err.message .slotAlreadyBooked = some "This time slot is already booked" := by
  refine ⟨?_, rfl⟩
  have h1 := missingOrRoleNe_eq_false.mpr hpatient
  have h2 := missingOrRoleNe_eq_false.mpr hdoctor
  have h3 := findOneActive_isSome.mpr hbusy
  simp [bookAppointment, h1, h2, hdate, h3]

/-- C2, at an instance: patient Q asks for the slot that patient P holds as pending. -/
theorem bookAppointment_slot_taken_witness :
    bookAppointment Sample.users [Sample.apt "pending"] Sample.may20 Sample.may20
        ⟨"660000000000000000000002"⟩ (Sample.request Sample.patientQ)
      = (.error .slotAlreadyBooked, [Sample.apt "pending"])
      ∧ Err.message .slotAlreadyBooked = some "This time slot is already booked" :=
  bookAppointment_slot_taken Sample.users [Sample.apt "pending"] Sample.may20 Sample.may20
    ⟨"660000000000000000000002"⟩ (Sample.request Sample.patientQ) Sample.june1
    ⟨Sample.patientQ, by decide, rfl⟩ ⟨Sample.doctorX, by decide, rfl⟩ rfl
    ⟨Sample.apt "pending", by simp, rfl, rfl, rfl, Or.inl rfl⟩

/-- C3, refuted as stated: a booking dated 2025-05-20, asked for on 2025-06-01, fails with
'Patient not found' when the patient is unknown, and with 'This time slot is already
booked' when the slot is held, not with the past-date error. -/
theorem bookAppointment_past_other_error :
    Sample.may20 < Sample.june1
      ∧ bookAppointment [] [] Sample.june1 Sample.june1 ⟨"660000000000000000000002"⟩
          { Sample.request Sample.patientP with appointmentDate := some Sample.may20 }
        = (.error .patientNotFound, [])
      ∧ bookAppointment Sample.users
          [{ Sample.apt "pending" with appointmentDate := Sample.may20 }]
          Sample.june1 Sample.june1 ⟨"660000000000000000000002"⟩
          { Sample.request Sample.patientQ with appointmentDate := some Sample.may20 }
        = (.error .slotAlreadyBooked,
            [{ Sample.apt "pending" with appointmentDate := Sample.may20 }]) :=
  ⟨by decide, rfl, rfl⟩

/-- C3, amended: a booking whose appointment date (and so also whose date with its
time-of-day) is earlier than the current moment always fails and leaves the store as it
was; the error is 'Patient not found', 'Doctor not found', 'This time slot is already
booked' or 'Cannot book appointment in the past', and it is the past-date error whenever
the patient and the doctor are valid and no pending or confirmed appointment holds the
slot. -/
theorem bookAppointment_past (users : List User) (store : Store) (now nowSave : Int)
    (newId : ObjectId) (data : AppointmentData) (date : Int)
    (hdate : data.appointmentDate = some date)
    (hpast : date < now ∨ ∃ m, slotMoment date data.appointmentTime = some m ∧ m < now) :
    (bookAppointment users store now nowSave newId data).2 = store
      ∧ ((bookAppointment users store now nowSave newId data).1 = .error .patientNotFound
        ∨ (bookAppointment users store now nowSave newId data).1 = .error .doctorNotFound
        ∨ (bookAppointment users store now nowSave newId data).1 = .error .slotAlreadyBooked
        ∨ (bookAppointment users store now nowSave newId data).1 = .error .pastBooking)
      ∧ ((∃ u, User.findById users data.patientId = some u ∧ u.role = "patient") →
          (∃ u, User.findById users data.doctorId = some u ∧ u.role = "doctor") →
          activeAt store data.doctorId date data.appointmentTime = [] →
          bookAppointment users store now nowSave newId data = (.error .pastBooking, store)
            ∧ Err.message .pastBooking = some "Cannot book appointment in the past") := by
  have hlt : date < now := by
    rcases hpast with h | ⟨m, hm, hmn⟩
    · exact h
    · exact lt_of_le_of_lt (slotMoment_ge hm) hmn
  refine ⟨?_, ?_, ?_⟩
  · unfold bookAppointment
    split_ifs <;> simp [hdate, hlt]
    split_ifs <;> rfl
  · unfold bookAppointment
    split_ifs <;> simp [hdate, hlt]
    split_ifs <;> simp
  · intro hp hd hfree
    have h1 := missingOrRoleNe_eq_false.mpr hp
    have h2 := missingOrRoleNe_eq_false.mpr hd
    have h3 : (findOneActive store data.doctorId date data.appointmentTime).isSome = false := by
      rw [← Bool.not_eq_true, findOneActive_isSome_iff_activeAt]
      simp [hfree]
    refine ⟨?_, rfl⟩
    simp [bookAppointment, h1, h2, hdate, h3, hlt]

/-- C3, amended, at an instance: patient P asks on 2025-06-01 for a free slot of
2025-05-20. -/
theorem bookAppointment_past_witness :
    bookAppointment Sample.users [] Sample.june1 Sample.june1 ⟨"660000000000000000000002"⟩
        { Sample.request Sample.patientP with appointmentDate := some Sample.may20 }
      = (.error .pastBooking, [])
      ∧ Err.message .pastBooking = some "Cannot book appointment in the past" :=
  (bookAppointment_past Sample.users [] Sample.june1 Sample.june1
    ⟨"660000000000000000000002"⟩
    { Sample.request Sample.patientP with appointmentDate := some Sample.may20 }
    Sample.may20 rfl (Or.inl (by decide))).2.2
    ⟨Sample.patientP, by decide, rfl⟩ ⟨Sample.doctorX, by decide, rfl⟩ rfl

/-- C4, refuted as stated: a caller with role 'system' whose id is that of patient Q,
neither the patient nor the doctor of the appointment, cancels it. -/
theorem updateAppointmentStatus_other_role :
    updateAppointmentStatus [Sample.apt "pending"] Sample.may20 (Sample.apt "pending")._id
        "cancelled" (.str Sample.patientQ._id.toString) "system" (some "closed")
      = (.ok { Sample.apt "cancelled" with
                cancelledBy := some "system", cancellationReason := some "closed" },
          [{ Sample.apt "cancelled" with
                cancelledBy := some "system", cancellationReason := some "closed" }]) :=
  rfl

/-- C4, amended: for every stored appointment, every requested status and every caller
whose role is 'patient' or 'doctor' and whose id is neither the appointment's patientId
nor its doctorId, `updateAppointmentStatus` fails with 'Unauthorized to update this
appointment' and the store is unchanged. (A caller with another role is not checked.) -/
theorem updateAppointmentStatus_stranger (store : Store) (nowSave : Int)
    (appointmentId : ObjectId) (status : String) (userId : CallerId) (userRole : String)
    (cancellationReason : Option String) (appointment : Appointment)
    (hfind : findById store appointmentId = some appointment)
    (hrole : userRole = "patient" ∨ userRole = "doctor")
    (hpatient : userId ≠ .str appointment.patientId.toString)
    (hdoctor : userId ≠ .str appointment.doctorId.toString) :
    updateAppointmentStatus store nowSave appointmentId status userId userRole
        cancellationReason = (.error .unauthorized, store)
      ∧ Err.message .unauthorized = some "Unauthorized to update this appointment" := by
  refine ⟨?_, rfl⟩
  have hp : strictNe appointment.patientId.toString userId = true := by
    cases userId with
    | str t => simpa [strictNe] using fun e => hpatient (by rw [e])
    | oid o => rfl
  have hd : strictNe appointment.doctorId.toString userId = true := by
    cases userId with
    | str t => simpa [strictNe] using fun e => hdoctor (by rw [e])
    | oid o => rfl
  rcases hrole with h | h
  · simp [updateAppointmentStatus, hfind, h, hp]
  · simp [updateAppointmentStatus, hfind, h, hd]

/-- C4, amended, at an instance: patient Q asks to cancel the appointment of patient P. -/
theorem updateAppointmentStatus_stranger_witness :
    updateAppointmentStatus [Sample.apt "pending"] Sample.may20 (Sample.apt "pending")._id
        "cancelled" (.str Sample.patientQ._id.toString) "patient" (some "closed")
      = (.error .unauthorized, [Sample.apt "pending"])
      ∧ Err.message .unauthorized = some "Unauthorized to update this appointment" :=
  updateAppointmentStatus_stranger [Sample.apt "pending"] Sample.may20
    (Sample.apt "pending")._id "cancelled" (.str Sample.patientQ._id.toString) "patient"
    (some "closed") (Sample.apt "pending") rfl (Or.inl rfl) (by decide) (by decide)

/-- C5, refuted as stated: the patient of a completed appointment sets it back to pending,
and the patient of a cancelled appointment sets it to confirmed. -/
theorem updateAppointmentStatus_leaves_terminal :
    updateAppointmentStatus [Sample.apt "completed"] Sample.may20
        (Sample.apt "completed")._id "pending" (.str Sample.patientP._id.toString) "patient"
        none
      = (.ok (Sample.apt "pending"), [Sample.apt "pending"])
      ∧ updateAppointmentStatus [Sample.apt "cancelled"] Sample.may20
          (Sample.apt "cancelled")._id "confirmed" (.str Sample.patientP._id.toString)
          "patient" none
        = (.ok (Sample.apt "confirmed"), [Sample.apt "confirmed"]) :=
  ⟨rfl, rfl⟩

/-- C5, amended: `updateAppointmentStatus` changes an appointment's status only to the
requested status and only when that is one of pending, confirmed, completed, cancelled;
a failed call leaves the store as it was and a successful one rewrites the found
appointment alone. The current status does not restrict the change: for a valid stored
appointment whose date is not before the moment of saving, the patient or the doctor of
the appointment (id given as a string) obtains every status of the enum, whatever the
current status is. -/
theorem updateAppointmentStatus_transitions (store : Store) (nowSave : Int)
    (appointmentId : ObjectId) (status : String) (userId : CallerId) (userRole : String)
    (cancellationReason : Option String) :
    ((∃ e, updateAppointmentStatus store nowSave appointmentId status userId userRole
          cancellationReason = (.error e, store))
        ∨ ∃ old a, findById store appointmentId = some old
            ∧ updateAppointmentStatus store nowSave appointmentId status userId userRole
                cancellationReason
              = (.ok a, store.map (fun b => if b._id = old._id then a else b))
            ∧ a.status = status ∧ status ∈ statusEnum)
      ∧ ∀ old, findById store appointmentId = some old →
          (userRole = "patient" ∧ userId = .str old.patientId.toString
            ∨ userRole = "doctor" ∧ userId = .str old.doctorId.toString) →
          invalidPaths old = [] → status ∈ statusEnum → nowSave ≤ old.appointmentDate →
          ∃ a, (updateAppointmentStatus store nowSave appointmentId status userId userRole
              cancellationReason).1 = .ok a ∧ a.status = status := by
  refine ⟨?_, fun old hfind howner hvalid hstatus hdate =>
    updateAppointmentStatus_owner store nowSave appointmentId status userId userRole
      cancellationReason old hfind howner hvalid hstatus hdate⟩
  rcases updateAppointmentStatus_outcome store nowSave appointmentId status userId userRole
      cancellationReason with h | ⟨old, a, hfind, hres, hvalid, -, hshape⟩
  · exact Or.inl h
  · refine Or.inr ⟨old, a, hfind, hres, ?_, ?_⟩
    · rcases hshape with ⟨-, h⟩ | ⟨-, -, h⟩ <;> rw [h]
    · have hs := (invalidPaths_eq_nil.mp hvalid).2.2.1
      rcases hshape with ⟨-, h⟩ | ⟨-, -, h⟩ <;> rw [h] at hs <;> exact hs

/-- C5, amended, at an instance: the doctor of a cancelled appointment sets it to
completed. -/
theorem updateAppointmentStatus_transitions_witness :
    ∃ a, (updateAppointmentStatus [Sample.apt "cancelled"] Sample.may20
        (Sample.apt "cancelled")._id "completed" (.str Sample.doctorX._id.toString) "doctor"
        none).1 = .ok a ∧ a.status = "completed" :=
  (updateAppointmentStatus_transitions [Sample.apt "cancelled"] Sample.may20
    (Sample.apt "cancelled")._id "completed" (.str Sample.doctorX._id.toString) "doctor"
    none).2 (Sample.apt "cancelled") rfl (Or.inr ⟨rfl, rfl⟩) (by decide) (by decide)
    (by decide)

/-- C6, broken by the code: doctor X, authenticated, asks to confirm the pending
appointment booked with them for 2025-06-01; the handler answers 400 'Unauthorized to
update this appointment' and the appointment stays pending, because `req.userId` is an
ObjectId and the service compares it to a string with `!==`. The same call with the id
given as a string succeeds. -/
theorem controller_update_by_doctor_refused :
    AppointmentController.updateAppointmentStatus [Sample.apt "pending"] Sample.may20
        (AppointmentController.attachUser Sample.doctorX (Sample.apt "pending")._id
          (some "confirmed") none)
      = (AppointmentController.sendError 400 (some "Unauthorized to update this appointment"),
          [Sample.apt "pending"])
      ∧ updateAppointmentStatus [Sample.apt "pending"] Sample.may20
          (Sample.apt "pending")._id "confirmed" (.str Sample.doctorX._id.toString) "doctor"
          none
        = (.ok (Sample.apt "confirmed"), [Sample.apt "confirmed"]) :=
  ⟨rfl, rfl⟩

/-- C7, refuted as stated: patient P cancels with the reason " schedule conflict ", and
the stored reason is "schedule conflict", the schema trimming the value. -/
theorem updateAppointmentStatus_reason_trimmed :
    updateAppointmentStatus [Sample.apt "confirmed"] Sample.may20
        (Sample.apt "confirmed")._id "cancelled" (.str Sample.patientP._id.toString)
        "patient" (some " schedule conflict ")
      = (.ok { Sample.apt "cancelled" with
                cancelledBy := some "patient"
                cancellationReason := some "schedule conflict" },
          [{ Sample.apt "cancelled" with
                cancelledBy := some "patient"
                cancellationReason := some "schedule conflict" }]) :=
  rfl

/-- C7, amended: after a successful `updateAppointmentStatus` call with new status
'cancelled' and a supplied (non-empty) reason r by a caller of role c, the appointment
has cancelledBy = c and cancellationReason = r with the white space at both ends
removed (so r itself when it has none); after a successful call where the new status is
not 'cancelled' or no reason is supplied, both fields are as they were. -/
theorem updateAppointmentStatus_cancellation (store : Store) (nowSave : Int)
    (appointmentId : ObjectId) (status : String) (userId : CallerId) (userRole : String)
    (cancellationReason : Option String) (old a : Appointment) (store2 : Store)
    (hfind : findById store appointmentId = some old)
    (hok : updateAppointmentStatus store nowSave appointmentId status userId userRole
      cancellationReason = (.ok a, store2)) :
    (∀ r, status = "cancelled" → cancellationReason = some r → r ≠ "" →
        a.cancelledBy = some userRole ∧ a.cancellationReason = some (jsTrim r)
          ∧ (jsTrim r = r → a.cancellationReason = some r))
      ∧ (status ≠ "cancelled" ∨ cancellationReason = none ∨ cancellationReason = some "" →
        a.cancelledBy = old.cancelledBy ∧ a.cancellationReason = old.cancellationReason) := by
  rcases updateAppointmentStatus_outcome store nowSave appointmentId status userId userRole
      cancellationReason with ⟨e, he⟩ | ⟨old2, a2, hfind2, hres, -, -, hshape⟩
  · rw [he] at hok
    simp at hok
  · rw [hfind] at hfind2
    simp only [Option.some.injEq] at hfind2
    subst hfind2
    rw [hres] at hok
    simp only [Prod.mk.injEq, Except.ok.injEq] at hok
    obtain ⟨ha, -⟩ := hok
    subst ha
    refine ⟨?_, ?_⟩
    · intro r hs hr hne
      rcases hshape with ⟨hno, -⟩ | ⟨-, -, h⟩
      · exact absurd ⟨hs, by simp [hr, truthy, hne]⟩ hno
      · rw [h, hr]
        exact ⟨rfl, rfl, fun e => congrArg some e⟩
    · intro hcase
      rcases hshape with ⟨-, h⟩ | ⟨hs, ht, h⟩
      · rw [h]
        exact ⟨rfl, rfl⟩
      · exfalso
        rcases hcase with h1 | h1 | h1
        · exact h1 hs
        · simp [h1, truthy] at ht
        · simp [h1, truthy] at ht

/-- C7, amended, at an instance: patient P cancels the confirmed appointment with the
reason "schedule conflict". -/
theorem updateAppointmentStatus_cancellation_witness :
    ∃ a store2,
      updateAppointmentStatus [Sample.apt "confirmed"] Sample.may20
          (Sample.apt "confirmed")._id "cancelled" (.str Sample.patientP._id.toString)
          "patient" (some "schedule conflict") = (.ok a, store2)
        ∧ a.cancelledBy = some "patient"
        ∧ a.cancellationReason = some "schedule conflict" :=
  have h := (updateAppointmentStatus_cancellation [Sample.apt "confirmed"] Sample.may20
    (Sample.apt "confirmed")._id "cancelled" (.str Sample.patientP._id.toString) "patient"
    (some "schedule conflict") (Sample.apt "confirmed")
    { Sample.apt "cancelled" with
      cancelledBy := some "patient"
      cancellationReason := some "schedule conflict" }
    [{ Sample.apt "cancelled" with
      cancelledBy := some "patient"
      cancellationReason := some "schedule conflict" }]
    rfl rfl).1 "schedule conflict" rfl rfl (by decide)
  ⟨_, _, rfl, h.1, h.2.2 (by decide)⟩

/-- C8: when `bookAppointment` succeeds and returns an appointment with id i,
`getAppointmentById(i)` on the resulting store returns that appointment: its patientId,
doctorId, date and time are those of the request, its duration is the requested one (30
when the request carries none, or 0), and its status is pending whatever `status` the
request carried. -/
theorem book_then_get (users : List User) (store : Store) (now nowSave : Int)
    (newId : ObjectId) (data : AppointmentData) (a : Appointment) (store2 : Store)
    (hok : bookAppointment users store now nowSave newId data = (.ok a, store2)) :
    ∃ b, getAppointmentById store2 a._id = .ok b ∧ b = a
      ∧ b.patientId = data.patientId ∧ b.doctorId = data.doctorId
      ∧ data.appointmentDate = some b.appointmentDate
      ∧ b.appointmentTime = data.appointmentTime
      ∧ (∀ n, data.duration = some n → n ≠ 0 → b.duration = n)
      ∧ (data.duration = none ∨ data.duration = some 0 → b.duration = 30)
      ∧ b.status = "pending" := by
  obtain ⟨date, hdate, ha, hs, hfresh, -, -, -⟩ := bookAppointment_ok hok
  refine ⟨a, ?_, rfl, ?_, ?_, ?_, ?_, ?_, ?_, ?_⟩
  · rw [hs]
    simp [getAppointmentById, findById_append_new hfresh]
  · rw [ha]
  · rw [ha]
  · rw [ha]; exact hdate
  · rw [ha]
  · intro n hn hn0
    rw [ha]
    simp [hn, hn0]
  · intro h
    rw [ha]
    rcases h with h | h <;> simp [h]
  · rw [ha]

/-- C8, at an instance: patient P books doctor X for 2025-06-01 at "14:00" with a request
that carries `status: 'confirmed'`. -/
theorem book_then_get_witness :
    bookAppointment Sample.users [] Sample.may20 Sample.may20 (Sample.apt "pending")._id
        { Sample.request Sample.patientP with status := some "confirmed" }
      = (.ok (Sample.apt "pending"), [Sample.apt "pending"])
      ∧ ∃ b, getAppointmentById [Sample.apt "pending"] (Sample.apt "pending")._id = .ok b
        ∧ b = Sample.apt "pending"
        ∧ b.patientId = Sample.patientP._id ∧ b.doctorId = Sample.doctorX._id
        ∧ some Sample.june1 = some b.appointmentDate
        ∧ b.appointmentTime = "14:00"
        ∧ (∀ n, (none : Option Int) = some n → n ≠ 0 → b.duration = n)
        ∧ ((none : Option Int) = none ∨ (none : Option Int) = some 0 → b.duration = 30)
        ∧ b.status = "pending" :=
  ⟨rfl, book_then_get Sample.users [] Sample.may20 Sample.may20 (Sample.apt "pending")._id
    { Sample.request Sample.patientP with status := some "confirmed" }
    (Sample.apt "pending") [Sample.apt "pending"] rfl⟩

/-- C9, broken by the code: the only appointment of doctor X on 2025-06-01 at "14:00" is
cancelled, and the booking of that slot by patient Q, which succeeds on the empty store,
is refused by the unique index on (doctorId, appointmentDate, appointmentTime), which
does not look at the status. -/
theorem bookAppointment_cancelled_slot_refused :
    activeAt [Sample.apt "cancelled"] Sample.doctorX._id Sample.june1 "14:00" = []
      ∧ bookAppointment Sample.users [Sample.apt "cancelled"] Sample.may20 Sample.may20
          ⟨"660000000000000000000002"⟩ (Sample.request Sample.patientQ)
        = (.error .duplicateKey, [Sample.apt "cancelled"])
      ∧ (bookAppointment Sample.users [] Sample.may20 Sample.may20
          ⟨"660000000000000000000002"⟩ (Sample.request Sample.patientQ)).1
        = .ok { Sample.apt "pending" with
                _id := ⟨"660000000000000000000002"⟩, patientId := Sample.patientQ._id } :=
  ⟨by decide, rfl, rfl⟩

/-- C10, refuted as stated: at 2025-06-01T10:00Z patient P asks for the free slot of
2025-06-01 at "14:00"; the moment formed from the date and the time-of-day is four hours
ahead, and the booking is rejected as past. -/
theorem bookAppointment_same_day_refused :
    slotMoment Sample.june1 "14:00" = some 1748786400000
      ∧ Sample.june1at10 ≤ 1748786400000
      ∧ bookAppointment Sample.users [] Sample.june1at10 Sample.june1at10
          ⟨"660000000000000000000002"⟩ (Sample.request Sample.patientP)
        = (.error .pastBooking, []) :=
  ⟨by decide, by decide, rfl⟩

/-- C10, amended: given a valid patient, a valid doctor and no conflicting active
appointment, `bookAppointment` rejects the request with 'Cannot book appointment in the
past' exactly when the appointment date alone, as a moment (the time-of-day is not
added), is strictly before the current moment; a booking whose date is at or after the
current moment, at the check and at the save, is not rejected as past, neither by the
service nor by the `pre('save')` hook. -/
theorem bookAppointment_past_iff (users : List User) (store : Store) (now nowSave : Int)
    (newId : ObjectId) (data : AppointmentData)
    (hpatient : ∃ u, User.findById users data.patientId = some u ∧ u.role = "patient")
    (hdoctor : ∃ u, User.findById users data.doctorId = some u ∧ u.role = "doctor")
    (hfree : ∀ date, data.appointmentDate = some date →
      activeAt store data.doctorId date data.appointmentTime = []) :
    ((bookAppointment users store now nowSave newId data).1 = .error .pastBooking
        ↔ ∃ date, data.appointmentDate = some date ∧ date < now)
      ∧ ∀ date, data.appointmentDate = some date → now ≤ date → nowSave ≤ date →
          (bookAppointment users store now nowSave newId data).1 ≠ .error .pastBooking
            ∧ (bookAppointment users store now nowSave newId data).1
              ≠ .error .pastDateOnSave := by
  have h1 := missingOrRoleNe_eq_false.mpr hpatient
  have h2 := missingOrRoleNe_eq_false.mpr hdoctor
  cases hd : data.appointmentDate with
  | none => simp [bookAppointment, h1, h2, hd]
  | some date =>
    have h3 : (findOneActive store data.doctorId date data.appointmentTime).isSome = false := by
      rw [← Bool.not_eq_true, findOneActive_isSome_iff_activeAt]
      simp [hfree date hd]
    by_cases hlt : date < now
    · have hnot : ¬ now ≤ date := not_le.mpr hlt
      simp [bookAppointment, h1, h2, hd, h3, hlt, hnot]
    · have hle : now ≤ date := not_lt.mp hlt
      simp only [bookAppointment, h1, h2, hd, h3, hlt, Bool.false_eq_true, if_false,
        Option.some.injEq, exists_eq_left', hle, forall_eq', true_implies]
      unfold create
      split_ifs with h5 h6 h7
      all_goals simp [preSaveRejects] at *
      all_goals omega

/-- C10, amended, at an instance: the booking asked for at 2025-06-01T10:00Z for the free
slot of 2025-06-01 (00:00Z) at "14:00". -/
theorem bookAppointment_past_iff_witness :
    (bookAppointment Sample.users [] Sample.june1at10 Sample.june1at10
      ⟨"660000000000000000000002"⟩ (Sample.request Sample.patientP)).1
      = .error .pastBooking :=
  (bookAppointment_past_iff Sample.users [] Sample.june1at10 Sample.june1at10
    ⟨"660000000000000000000002"⟩ (Sample.request Sample.patientP)
    ⟨Sample.patientP, by decide, rfl⟩ ⟨Sample.doctorX, by decide, rfl⟩
    (fun _ _ => rfl)).1.mpr ⟨Sample.june1, rfl, by decide⟩

/-- C11: `bookAppointment` fails with 'Patient not found' when no account has the given
patientId or the account found has a role other than patient, and with 'Doctor not found'
when the patient is valid and no account has the given doctorId or the account found has
a role other than doctor; in both cases the store is returned as it was. -/
theorem bookAppointment_not_found (users : List User) (store : Store) (now nowSave : Int)
    (newId : ObjectId) (data : AppointmentData) :
    ((∀ u ∈ users, u._id ≠ data.patientId)
        ∨ (∃ u, User.findById users data.patientId = some u ∧ u.role ≠ "patient") →
      bookAppointment users store now nowSave newId data = (.error .patientNotFound, store)
        ∧ Err.message .patientNotFound = some "Patient not found")
      ∧ ((∃ u, User.findById users data.patientId = some u ∧ u.role = "patient") →
        (∀ u ∈ users, u._id ≠ data.doctorId)
          ∨ (∃ u, User.findById users data.doctorId = some u ∧ u.role ≠ "doctor") →
        bookAppointment users store now nowSave newId data = (.error .doctorNotFound, store)
          ∧ Err.message .doctorNotFound = some "Doctor not found") := by
  refine ⟨fun h => ⟨?_, rfl⟩, fun hp h => ⟨?_, rfl⟩⟩
  · have h1 : missingOrRoleNe (User.findById users data.patientId) "patient" = true := by
      rw [missingOrRoleNe_eq_true, findById_eq_none]
      exact h
    simp [bookAppointment, h1]
  · have h1 := missingOrRoleNe_eq_false.mpr hp
    have h2 : missingOrRoleNe (User.findById users data.doctorId) "doctor" = true := by
      rw [missingOrRoleNe_eq_true, findById_eq_none]
      exact h
    simp [bookAppointment, h1, h2]

/-- C11, at an instance: a booking in the name of doctor X (an account that is not a
patient), and a booking by patient P with patient Q in the place of the doctor. -/
theorem bookAppointment_not_found_witness :
    bookAppointment Sample.users [] Sample.may20 Sample.may20 ⟨"660000000000000000000002"⟩
        (Sample.request Sample.doctorX) = (.error .patientNotFound, [])
      ∧ bookAppointment Sample.users [] Sample.may20 Sample.may20
          ⟨"660000000000000000000002"⟩
          { Sample.request Sample.patientP with doctorId := Sample.patientQ._id }
        = (.error .doctorNotFound, []) :=
  ⟨((bookAppointment_not_found Sample.users [] Sample.may20 Sample.may20
      ⟨"660000000000000000000002"⟩ (Sample.request Sample.doctorX)).1
      (Or.inr ⟨Sample.doctorX, by decide, by decide⟩)).1,
    ((bookAppointment_not_found Sample.users [] Sample.may20 Sample.may20
      ⟨"660000000000000000000002"⟩
      { Sample.request Sample.patientP with doctorId := Sample.patientQ._id }).2
      ⟨Sample.patientP, by decide, rfl⟩
      (Or.inr ⟨Sample.patientQ, by decide, by decide⟩)).1⟩

/-- C12, refuted as stated: a booking that supplies the duration 0, which is below 15, is
accepted, and the stored duration is 30, not the supplied one. -/
theorem bookAppointment_zero_duration :
    bookAppointment Sample.users [] Sample.may20 Sample.may20 (Sample.apt "pending")._id
        { Sample.request Sample.patientP with duration := some 0 }
      = (.ok (Sample.apt "pending"), [Sample.apt "pending"])
      ∧ (Sample.apt "pending").duration = 30 :=
  ⟨rfl, rfl⟩

/-- C12, amended: after a successful `bookAppointment` call the stored duration is 30 when
no duration, or the duration 0, is supplied and the supplied duration otherwise, and it
is at least 15; a booking that supplies a duration below 15 other than 0 is rejected and
leaves the store as it was. -/
theorem bookAppointment_duration (users : List User) (store : Store) (now nowSave : Int)
    (newId : ObjectId) (data : AppointmentData) :
    (∀ a store2, bookAppointment users store now nowSave newId data = (.ok a, store2) →
        (data.duration = none ∨ data.duration = some 0 → a.duration = 30)
          ∧ (∀ n, data.duration = some n → n ≠ 0 → a.duration = n)
          ∧ 15 ≤ a.duration ∧ a ∈ store2)
      ∧ ∀ n, data.duration = some n → n < 15 → n ≠ 0 →
          ∃ e, bookAppointment users store now nowSave newId data = (.error e, store) := by
  have hok : ∀ a store2, bookAppointment users store now nowSave newId data = (.ok a, store2) →
      (data.duration = none ∨ data.duration = some 0 → a.duration = 30)
        ∧ (∀ n, data.duration = some n → n ≠ 0 → a.duration = n)
        ∧ 15 ≤ a.duration ∧ a ∈ store2 := by
    intro a store2 h
    obtain ⟨date, -, ha, hs, -, hvalid, -, -⟩ := bookAppointment_ok h
    refine ⟨?_, ?_, (invalidPaths_eq_nil.mp hvalid).2.1, by rw [hs]; simp⟩
    · intro h0
      rw [ha]
      rcases h0 with h0 | h0 <;> simp [h0]
    · intro n hn hn0
      rw [ha]
      simp [hn, hn0]
  refine ⟨hok, ?_⟩
  intro n hn hlt hn0
  rcases hres : bookAppointment users store now nowSave newId data with ⟨r, s2⟩
  cases r with
  | error e =>
    have hs := bookAppointment_error_store (e := e) (by rw [hres])
    rw [hres] at hs
    exact ⟨e, by rw [← hs]⟩
  | ok a =>
    exfalso
    obtain ⟨-, h2, h3, -⟩ := hok a s2 hres
    have := h2 n hn hn0
    omega

/-- C12, amended, at an instance: patient P books doctor X with a duration of 45 minutes,
and with a duration of 10 minutes. -/
theorem bookAppointment_duration_witness :
    ({ Sample.apt "pending" with duration := 45 } : Appointment).duration = 45
      ∧ ∃ e, bookAppointment Sample.users [] Sample.may20 Sample.may20
          (Sample.apt "pending")._id
          { Sample.request Sample.patientP with duration := some 10 } = (.error e, []) :=
  ⟨((bookAppointment_duration Sample.users [] Sample.may20 Sample.may20
      (Sample.apt "pending")._id
      { Sample.request Sample.patientP with duration := some 45 }).1
      { Sample.apt "pending" with duration := 45 }
      [{ Sample.apt "pending" with duration := 45 }] rfl).2.1 45 rfl (by decide),
    (bookAppointment_duration Sample.users [] Sample.may20 Sample.may20
      (Sample.apt "pending")._id
      { Sample.request Sample.patientP with duration := some 10 }).2 10 rfl (by decide)
      (by decide)⟩

/-- C13, refuted as stated: patient P books doctor X, cancels with the reason "schedule
conflict" and then sets the status to confirmed; the appointment reached is confirmed and
still carries cancelledBy and cancellationReason. -/
theorem cancellation_fields_survive :
    storeAfter
        [.book Sample.users Sample.may20 Sample.may20 (Sample.apt "pending")._id
            (Sample.request Sample.patientP),
          .update Sample.may20 (Sample.apt "pending")._id "cancelled"
            (.str Sample.patientP._id.toString) "patient" (some "schedule conflict"),
          .update Sample.may20 (Sample.apt "pending")._id "confirmed"
            (.str Sample.patientP._id.toString) "patient" none]
      = [{ Sample.apt "confirmed" with
            cancelledBy := some "patient"
            cancellationReason := some "schedule conflict" }] :=
  rfl

/-- C13, amended: in every store reached through `bookAppointment` and
`updateAppointmentStatus` calls, cancelledBy or cancellationReason is set on an appointment
only if a call of the sequence was an `updateAppointmentStatus` of that appointment to
'cancelled' with a non-empty reason, and then both fields are set and hold the role and
the trimmed reason of such a call. (The status may have been changed since: a later status
change does not clear the fields.) -/
theorem cancellation_fields_history (calls : List Call) (a : Appointment)
    (ha : a ∈ storeAfter calls)
    (hset : a.cancelledBy ≠ none ∨ a.cancellationReason ≠ none) :
    ∃ nowSave userId userRole r,
      Call.update nowSave a._id "cancelled" userId userRole (some r) ∈ calls ∧ r ≠ ""
        ∧ a.cancelledBy = some userRole ∧ a.cancellationReason = some (jsTrim r) := by
  induction calls using List.reverseRecOn generalizing a with
  | nil => simp [storeAfter] at ha
  | append_singleton calls c ih =>
    rw [storeAfter_append] at ha
    have hlift : (∃ nowSave userId userRole r,
        Call.update nowSave a._id "cancelled" userId userRole (some r) ∈ calls ∧ r ≠ ""
          ∧ a.cancelledBy = some userRole ∧ a.cancellationReason = some (jsTrim r)) →
        ∃ nowSave userId userRole r,
          Call.update nowSave a._id "cancelled" userId userRole (some r) ∈ calls ++ [c]
            ∧ r ≠ "" ∧ a.cancelledBy = some userRole
            ∧ a.cancellationReason = some (jsTrim r) := by
      rintro ⟨n, u, ro, r, hmem, hr⟩
      exact ⟨n, u, ro, r, List.mem_append_left _ hmem, hr⟩
    cases c with
    | book users now nowSave newId data =>
      rcases bookAppointment_mem ha with h | ⟨-, h1, h2⟩
      · exact hlift (ih a h hset)
      · rcases hset with h | h
        · exact absurd h1 h
        · exact absurd h2 h
    | update nowSave appointmentId status userId userRole cancellationReason =>
      rcases updateAppointmentStatus_mem ha with h | ⟨old, hold, hoid, haid, hcase⟩
      · exact hlift (ih a h hset)
      · rcases hcase with ⟨h1, h2⟩ | ⟨hs, r, hr, hne, -, h1, h2⟩
        · have hsetold : old.cancelledBy ≠ none ∨ old.cancellationReason ≠ none := by
            rw [← h1, ← h2]
            exact hset
          obtain ⟨n, u, ro, r, hmem, hr, hc1, hc2⟩ := ih old hold hsetold
          refine hlift ⟨n, u, ro, r, ?_, hr, h1.trans hc1, h2.trans hc2⟩
          rw [haid, ← hoid]
          exact hmem
        · refine ⟨nowSave, userId, userRole, r, ?_, hne, h1, h2⟩
          rw [haid, hs, hr]
          simp

/-- C13, amended, at an instance: the appointment that patient P cancelled and then set to
confirmed. -/
theorem cancellation_fields_history_witness :
    ∃ nowSave userId userRole r,
      Call.update nowSave (Sample.apt "pending")._id "cancelled" userId userRole (some r)
          ∈ [Call.book Sample.users Sample.may20 Sample.may20 (Sample.apt "pending")._id
              (Sample.request Sample.patientP),
            .update Sample.may20 (Sample.apt "pending")._id "cancelled"
              (.str Sample.patientP._id.toString) "patient" (some "schedule conflict"),
            .update Sample.may20 (Sample.apt "pending")._id "confirmed"
              (.str Sample.patientP._id.toString) "patient" none]
        ∧ r ≠ "" ∧ some "patient" = some userRole
        ∧ some "schedule conflict" = some (jsTrim r) :=
  cancellation_fields_history
    [.book Sample.users Sample.may20 Sample.may20 (Sample.apt "pending")._id
        (Sample.request Sample.patientP),
      .update Sample.may20 (Sample.apt "pending")._id "cancelled"
        (.str Sample.patientP._id.toString) "patient" (some "schedule conflict"),
      .update Sample.may20 (Sample.apt "pending")._id "confirmed"
        (.str Sample.patientP._id.toString) "patient" none]
    { Sample.apt "confirmed" with
      cancelledBy := some "patient"
      cancellationReason := some "schedule conflict" }
    (List.mem_singleton.mpr rfl) (Or.inl (by decide))

/-- C14: for every store and every patient id p, `getAppointmentsByPatient(p)` returns
exactly the stored appointments whose patientId is p (it is a rearrangement of them: each
once, none other), ordered by appointmentDate descending and, among equal dates, by
appointmentTime descending: in the order of the stored strings, which for times written
`HH:MM` is the order of the times of day. `getAppointmentsByDoctor` does the same for
doctorId. -/
theorem getAppointments_listing (store : Store) (id : ObjectId) :
    ((getAppointmentsByPatient store id).Perm
          (store.filter (fun a => decide (a.patientId = id)))
        ∧ (getAppointmentsByPatient store id).Pairwise
            (fun a b => b.appointmentDate ≤ a.appointmentDate
              ∧ (a.appointmentDate = b.appointmentDate →
                  b.appointmentTime ≤ a.appointmentTime
                    ∧ ∀ x y, timeOfDayMillis a.appointmentTime = some x →
                        timeOfDayMillis b.appointmentTime = some y → y ≤ x)))
      ∧ (getAppointmentsByDoctor store id).Perm
          (store.filter (fun a => decide (a.doctorId = id)))
        ∧ (getAppointmentsByDoctor store id).Pairwise
            (fun a b => b.appointmentDate ≤ a.appointmentDate
              ∧ (a.appointmentDate = b.appointmentDate →
                  b.appointmentTime ≤ a.appointmentTime
                    ∧ ∀ x y, timeOfDayMillis a.appointmentTime = some x →
                        timeOfDayMillis b.appointmentTime = some y → y ≤ x)) :=
  ⟨insertionSort_sortsBefore _, insertionSort_sortsBefore _⟩

/-- C15, broken by the code: patient Q, authenticated, neither the patient nor the doctor
of the appointment of patient P with doctor X, fetches it by id and is answered 200 with
the appointment; the handler does not look at the caller. -/
theorem controller_get_by_stranger :
    Sample.patientQ._id ≠ (Sample.apt "pending").patientId
      ∧ Sample.patientQ._id ≠ (Sample.apt "pending").doctorId
      ∧ AppointmentController.getAppointmentById [Sample.apt "pending"]
          { userId := Sample.patientQ._id, userRole := Sample.patientQ.role,
            id := (Sample.apt "pending")._id }
        = AppointmentController.sendSuccess 200 "Appointment retrieved successfully"
            (Sample.apt "pending") :=
  ⟨by decide, by decide, rfl⟩

/-- C16: the booking data that the handler `bookAppointment` passes to the service has
the authenticated caller's id as patientId, and two requests by the same caller whose
bodies differ only in their `patientId` key give the same booking data and the same
outcome. -/
theorem controller_booking_patient (users : List User) (store : Store) (now nowSave : Int)
    (newId : ObjectId) (req1 req2 : AppointmentController.BookingRequest)
    (hcaller : req1.userId = req2.userId ∧ req1.userRole = req2.userRole)
    (hbody : { req1.body with patientId := none } = { req2.body with patientId := none }) :
    (AppointmentController.appointmentData req1).patientId = req1.userId
      ∧ AppointmentController.appointmentData req1 = AppointmentController.appointmentData req2
      ∧ AppointmentController.bookAppointment users store now nowSave newId req1
        = AppointmentController.bookAppointment users store now nowSave newId req2 := by
  have hdata : AppointmentController.appointmentData req1
      = AppointmentController.appointmentData req2 := by
    simp only [AppointmentController.BookingBody.mk.injEq, true_and] at hbody
    obtain ⟨h1, h2, h3, h4, h5, h6, h7⟩ := hbody
    simp [AppointmentController.appointmentData, hcaller.1, h1, h2, h3, h4, h5, h6, h7]
  refine ⟨rfl, hdata, ?_⟩
  simp only [AppointmentController.bookAppointment, hdata]

/-- C16, at an instance: patient Q books doctor X, once with no `patientId` in the body
and once with the id of patient P there; both requests book for patient Q. -/
theorem controller_booking_patient_witness :
    (AppointmentController.appointmentData
        { userId := Sample.patientQ._id, userRole := "patient",
          body := { patientId := some Sample.patientP._id.toString,
                    doctorId := Sample.doctorX._id, appointmentDate := some Sample.june1,
                    appointmentTime := "14:00", duration := none, reason := none,
                    notes := none, status := none } }).patientId = Sample.patientQ._id
      ∧ AppointmentController.appointmentData
          { userId := Sample.patientQ._id, userRole := "patient",
            body := { patientId := some Sample.patientP._id.toString,
                      doctorId := Sample.doctorX._id, appointmentDate := some Sample.june1,
                      appointmentTime := "14:00", duration := none, reason := none,
                      notes := none, status := none } }
        = AppointmentController.appointmentData
          { userId := Sample.patientQ._id, userRole := "patient",
            body := { patientId := none,
                      doctorId := Sample.doctorX._id, appointmentDate := some Sample.june1,
                      appointmentTime := "14:00", duration := none, reason := none,
                      notes := none, status := none } }
      ∧ AppointmentController.bookAppointment Sample.users [] Sample.may20 Sample.may20
          ⟨"660000000000000000000002"⟩
          { userId := Sample.patientQ._id, userRole := "patient",
            body := { patientId := some Sample.patientP._id.toString,
                      doctorId := Sample.doctorX._id, appointmentDate := some Sample.june1,
                      appointmentTime := "14:00", duration := none, reason := none,
                      notes := none, status := none } }
        = AppointmentController.bookAppointment Sample.users [] Sample.may20 Sample.may20
          ⟨"660000000000000000000002"⟩
          { userId := Sample.patientQ._id, userRole := "patient",
            body := { patientId := none,
                      doctorId := Sample.doctorX._id, appointmentDate := some Sample.june1,
                      appointmentTime := "14:00", duration := none, reason := none,
                      notes := none, status := none } } :=
  controller_booking_patient Sample.users [] Sample.may20 Sample.may20
    ⟨"660000000000000000000002"⟩ _ _ ⟨rfl, rfl⟩ rfl

/-- C17: `validateRegister` calls `next` if and only if name, email, password and role are
all present and non-empty, role is 'patient' or 'doctor', the email has the shape
non-space@non-space.non-space and the password has length at least 6; in every other
case it answers 400 (and does not call `next`). -/
theorem validateRegister_passes (body : AuthValidation.RegisterBody) :
    (AuthValidation.validateRegister body = .next ↔
        ∃ name email password role,
          body.name = some name ∧ body.email = some email
            ∧ body.password = some password ∧ body.role = some role
            ∧ name ≠ "" ∧ email ≠ "" ∧ password ≠ "" ∧ role ≠ ""
            ∧ (role = "patient" ∨ role = "doctor")
            ∧ AuthValidation.EmailShape email ∧ 6 ≤ jsLength password)
      ∧ (AuthValidation.validateRegister body = .next
        ∨ ∃ message, AuthValidation.validateRegister body = .respond 400 message) := by
  constructor
  · obtain ⟨name, email, password, role, phone⟩ := body
    cases name <;> cases email <;> cases password <;> cases role <;>
      simp [AuthValidation.validateRegister, truthy]
    rename_i name email password role
    rw [← emailRegexTest_iff]
    by_cases h1 : name = "" <;> by_cases h2 : email = "" <;> by_cases h3 : password = ""
      <;> by_cases h4 : role = "" <;> simp [h1, h2, h3, h4]
    split_ifs with g1 g2 g3
    · simp only [reduceCtorEq, false_iff, not_and, not_le]
      intro hr
      exact absurd hr (by tauto)
    · simp only [reduceCtorEq, false_iff, not_and, not_le]
      intro _ he
      simp [g2] at he
    · simp only [reduceCtorEq, false_iff, not_and, not_le]
      intro _ _
      exact g3
    · simp only [true_iff]
      refine ⟨by tauto, by simpa using g2, by omega⟩
  · unfold AuthValidation.validateRegister
    split_ifs
    · exact Or.inr ⟨_, rfl⟩
    · exact Or.inr ⟨_, rfl⟩
    · exact Or.inr ⟨_, rfl⟩
    · exact Or.inr ⟨_, rfl⟩
    · exact Or.inl rfl

/-- C18: in every collection of accounts reached through `register` calls, a registration
whose email equals, ignoring letter case, the email of a stored account fails with 'User
with this email already exists' and leaves the collection as it was; and no two stored
accounts have emails that are equal ignoring letter case. -/
theorem register_duplicate_email (schema : UserSchema) (env : EnvConfig)
    (regs : List Registration) (now : Int) (newId : ObjectId) (userData : UserData) :
    ((∃ u ∈ usersAfter schema env regs, toLowerCase u.email = toLowerCase userData.email) →
        AuthService.register schema env (usersAfter schema env regs) now newId userData
          = (.error .userExists, usersAfter schema env regs)
        ∧ AuthError.message .userExists = some "User with this email already exists")
      ∧ (usersAfter schema env regs).Pairwise
          (fun u v => toLowerCase u.email ≠ toLowerCase v.email) := by
  have hinv := usersAfter_emailsUnique schema env regs
  refine ⟨?_, ?_⟩
  · rintro ⟨u, hu, hue⟩
    refine ⟨?_, rfl⟩
    rw [hinv.1 u hu] at hue
    unfold AuthService.register
    cases hfind : UserModel.findOneByEmail (usersAfter schema env regs) userData.email with
    | some v => rfl
    | none => exact absurd hue (findOneByEmail_eq_none.mp hfind u hu)
  · refine List.Pairwise.imp_of_mem ?_ hinv.2
    intro u v hu hv hne
    rw [hinv.1 u hu, hinv.1 v hv]
    exact hne

/-- C18, at an instance: patient S has registered with "S@EXAMPLE.ORG", and a second
registration comes with "s@Example.org". -/
theorem register_duplicate_email_witness :
    AuthService.register Sample.schema Sample.env [Sample.patientS] Sample.june1
        ⟨"650000000000000000000006"⟩ { Sample.dataS with email := "s@Example.org" }
      = (.error .userExists, [Sample.patientS])
      ∧ AuthError.message .userExists = some "User with this email already exists" :=
  (register_duplicate_email Sample.schema Sample.env
    [{ now := Sample.may20, newId := Sample.patientS._id, userData := Sample.dataS }]
    Sample.june1 ⟨"650000000000000000000006"⟩
    { Sample.dataS with email := "s@Example.org" }).1
    ⟨Sample.patientS, List.mem_singleton.mpr rfl, by decide⟩

/-- C19, refuted as stated: the account of patient R is deactivated and the password given
does not verify against its stored hash; `login` fails with the account-inactive error,
not with 'Invalid email or password'. -/
theorem login_inactive_wrong_password :
    Sample.schema.comparePassword "wrong" Sample.patientR.password = false
      ∧ AuthService.login Sample.schema Sample.env [Sample.patientR, Sample.patientS]
          Sample.may20 "r@example.org" "wrong" = .error .accountInactive :=
  ⟨by decide, rfl⟩

/-- C19, amended: `login` fails with 'Invalid email or password' exactly when no account
matches the email, or the account found is active and the password does not verify
against its stored hash; it fails with the account-inactive error exactly when the
account found is deactivated, whatever the password; and when the account found is active
and the password verifies it returns the account, without its password, and a token for
its id and role. -/
theorem login_outcome (schema : UserSchema) (env : EnvConfig) (users : List User)
    (now : Int) (email password : String) :
    (AuthService.login schema env users now email password = .error .invalidCredentials
        ↔ (∀ u ∈ users, u.email ≠ toLowerCase email)
          ∨ ∃ u, UserModel.findOneByEmail users email = some u ∧ u.isActive = true
              ∧ schema.comparePassword password u.password = false)
      ∧ (AuthService.login schema env users now email password = .error .accountInactive
        ↔ ∃ u, UserModel.findOneByEmail users email = some u ∧ u.isActive = false)
      ∧ ∀ u, UserModel.findOneByEmail users email = some u → u.isActive = true →
          schema.comparePassword password u.password = true →
          AuthService.login schema env users now email password
            = .ok { user := AuthService.userResponse u
                    token := JwtUtil.generateToken env now u._id u.role } := by
  unfold AuthService.login
  cases hfind : UserModel.findOneByEmail users email with
  | none =>
    have hall := findOneByEmail_eq_none.mp hfind
    simp only [reduceCtorEq, exists_false, or_false, false_and, iff_false, not_false_eq_true,
      false_implies, implies_true, and_true, true_iff, false_iff]
    exact ⟨hall, by simp⟩
  | some u =>
    have hmem := findOneByEmail_some hfind
    have hnot : ¬ ∀ v ∈ users, v.email ≠ toLowerCase email :=
      fun hall => hall u hmem.1 hmem.2
    cases hact : u.isActive <;> cases hcmp : schema.comparePassword password u.password <;>
      simp [hact, hcmp, hnot]

/-- C19, amended, at an instance: patient S logs in with the email in capitals and the
right password. -/
theorem login_outcome_witness :
    AuthService.login Sample.schema Sample.env [Sample.patientR, Sample.patientS]
        Sample.may20 "S@EXAMPLE.ORG" "secret-s"
      = .ok { user := AuthService.userResponse Sample.patientS
              token := JwtUtil.generateToken Sample.env Sample.may20 Sample.patientS._id
                Sample.patientS.role } :=
  (login_outcome Sample.schema Sample.env [Sample.patientR, Sample.patientS] Sample.may20
    "S@EXAMPLE.ORG" "secret-s").2.2 Sample.patientS (by decide) rfl (by decide)

/-- C20, refuted as stated: a token issued with a lifetime of one second and verified two
seconds later, which the library reports as expired, and a string that is no token, which
the library reports as malformed, both make `verifyToken` fail with the same error,
'Invalid or expired token'. -/
theorem verifyToken_same_error :
    JwtUtil.verify
        (JwtUtil.generateToken Sample.env Sample.may20 Sample.patientS._id "patient")
        Sample.env.jwtSecret (Sample.may20 + 2000) = .error .tokenExpiredError
      ∧ JwtUtil.verify (.malformed "abc") Sample.env.jwtSecret (Sample.may20 + 2000)
        = .error (.jsonWebTokenError "jwt malformed")
      ∧ JwtUtil.verifyToken Sample.env (Sample.may20 + 2000)
          (JwtUtil.generateToken Sample.env Sample.may20 Sample.patientS._id "patient")
        = .error .invalidOrExpiredToken
      ∧ JwtUtil.verifyToken Sample.env (Sample.may20 + 2000) (.malformed "abc")
        = .error .invalidOrExpiredToken :=
  ⟨rfl, rfl, rfl, rfl⟩

/-- C20, amended: `verifyToken` reports a correctly signed token that is past its expiry
with the same error as a malformed or wrongly signed token, 'Invalid or expired token':
whatever error `jwt.verify` gives, that one error is thrown, and a token that verifies
yields its payload. So a token issued by `generateToken` fails with that error once the
current second has reached the second of issue plus the lifetime, and yields its user id
and role before. -/
theorem verifyToken_outcome (env : EnvConfig) (now : Int) (token : Token) :
    (∀ e, JwtUtil.verify token env.jwtSecret now = .error e →
        JwtUtil.verifyToken env now token = .error .invalidOrExpiredToken
          ∧ AuthError.message .invalidOrExpiredToken = some "Invalid or expired token")
      ∧ (∀ payload, JwtUtil.verify token env.jwtSecret now = .ok payload →
        JwtUtil.verifyToken env now token = .ok payload)
      ∧ ∀ issued userId role,
          (issued / 1000 + env.jwtExpire ≤ now / 1000 →
            JwtUtil.verifyToken env now (JwtUtil.generateToken env issued userId role)
              = .error .invalidOrExpiredToken)
          ∧ (now / 1000 < issued / 1000 + env.jwtExpire →
            JwtUtil.verifyToken env now (JwtUtil.generateToken env issued userId role)
              = .ok { userId := userId, role := role }) := by
  refine ⟨fun e h => ⟨by simp [JwtUtil.verifyToken, h], rfl⟩,
    fun payload h => by simp [JwtUtil.verifyToken, h], ?_⟩
  intro issued userId role
  constructor
  · intro h
    simp [JwtUtil.verifyToken, JwtUtil.verify, JwtUtil.generateToken, JwtUtil.sign, h]
  · intro h
    have h2 : ¬ issued / 1000 + env.jwtExpire ≤ now / 1000 := not_le.mpr h
    simp [JwtUtil.verifyToken, JwtUtil.verify, JwtUtil.generateToken, JwtUtil.sign, h2]

/-- C20, amended, at an instance: the token of patient S, issued with a lifetime of one
second, verified two seconds after its issue and in the second of its issue. -/
theorem verifyToken_outcome_witness :
    JwtUtil.verifyToken Sample.env (Sample.may20 + 2000)
        (JwtUtil.generateToken Sample.env Sample.may20 Sample.patientS._id "patient")
      = .error .invalidOrExpiredToken
      ∧ JwtUtil.verifyToken Sample.env (Sample.may20 + 500)
          (JwtUtil.generateToken Sample.env Sample.may20 Sample.patientS._id "patient")
        = .ok { userId := Sample.patientS._id, role := "patient" } :=
  ⟨((verifyToken_outcome Sample.env (Sample.may20 + 2000) (.malformed "abc")).2.2
      Sample.may20 Sample.patientS._id "patient").1 (by decide),
    ((verifyToken_outcome Sample.env (Sample.may20 + 500) (.malformed "abc")).2.2
      Sample.may20 Sample.patientS._id "patient").2 (by decide)⟩

/-- C21: `authenticate` calls `next` if and only if the Authorization header is present
and starts with 'Bearer ', the text after that prefix verifies as a token and the account
the token names exists and is active, and the userId and role then bound are those of
the stored account; in every other case it answers 401. -/
theorem authenticate_passes (env : EnvConfig) (decode : String → Token) (users : List User)
    (now : Int) (authorization : Option String) :
    (∀ bound, AuthMiddleware.authenticate env decode users now authorization = .next bound
        ↔ ∃ text payload user, authorization = some ("Bearer " ++ text)
            ∧ JwtUtil.verifyToken env now (decode text) = .ok payload
            ∧ User.findById users payload.userId = some user ∧ user.isActive = true
            ∧ bound = { user := AuthService.userResponse user
                        userId := user._id
                        userRole := user.role })
      ∧ ((∃ bound, AuthMiddleware.authenticate env decode users now authorization
            = .next bound)
        ∨ ∃ message, AuthMiddleware.authenticate env decode users now authorization
            = .respond 401 message) := by
  have hinj : ∀ text text2 : String, some ("Bearer " ++ text) = some ("Bearer " ++ text2) →
      text2 = text := by
    intro text text2 h
    have := Option.some.inj h
    apply String.ext
    have hd := congrArg String.data this
    rw [String.data_append, String.data_append] at hd
    exact (List.append_cancel_left hd).symm
  cases authorization with
  | none => simp [AuthMiddleware.authenticate]
  | some authHeader =>
    by_cases hb : authHeader = "" ∨ startsWithChars authHeader.data "Bearer ".data = false
    · have hno : ¬ ∃ text : String, authHeader = "Bearer " ++ text :=
        fun h => (bearer_header_iff authHeader).mpr h hb
      have hres : AuthMiddleware.authenticate env decode users now (some authHeader)
          = .respond 401 (some "No token provided, authorization denied") := by
        simp only [AuthMiddleware.authenticate, if_pos hb]
      rw [hres]
      refine ⟨fun bound => ?_, Or.inr ⟨_, rfl⟩⟩
      simp only [reduceCtorEq, false_iff]
      rintro ⟨text, payload, user, h, -⟩
      exact hno ⟨text, Option.some.inj h⟩
    · obtain ⟨text, rfl⟩ := (bearer_header_iff authHeader).mp hb
      cases hv : JwtUtil.verifyToken env now (decode text) with
      | error e =>
        have hres : AuthMiddleware.authenticate env decode users now
            (some ("Bearer " ++ text))
            = .respond 401 (e.message.map (fun m => if m = "" then "Invalid token" else m)) := by
          simp only [AuthMiddleware.authenticate, if_neg hb, bearer_text, hv]
        rw [hres]
        refine ⟨fun bound => ?_, Or.inr ⟨_, rfl⟩⟩
        simp only [reduceCtorEq, false_iff]
        rintro ⟨text2, payload, user, h, hv2, -⟩
        rw [hinj text text2 h, hv] at hv2
        exact Except.noConfusion hv2
      | ok decoded =>
        cases hu : User.findById users decoded.userId with
        | none =>
          have hres : AuthMiddleware.authenticate env decode users now
              (some ("Bearer " ++ text)) = .respond 401 (some "User not found") := by
            simp only [AuthMiddleware.authenticate, if_neg hb, bearer_text, hv, hu]
          rw [hres]
          refine ⟨fun bound => ?_, Or.inr ⟨_, rfl⟩⟩
          simp only [reduceCtorEq, false_iff]
          rintro ⟨text2, payload, user, h, hv2, hf, -⟩
          rw [hinj text text2 h, hv] at hv2
          cases hv2
          rw [hu] at hf
          exact Option.noConfusion hf
        | some user =>
          cases ha : user.isActive with
          | false =>
            have hres : AuthMiddleware.authenticate env decode users now
                (some ("Bearer " ++ text))
                = .respond 401 (some "User account is inactive") := by
              simp only [AuthMiddleware.authenticate, if_neg hb, bearer_text, hv, hu, ha]
              rfl
            rw [hres]
            refine ⟨fun bound => ?_, Or.inr ⟨_, rfl⟩⟩
            simp only [reduceCtorEq, false_iff]
            rintro ⟨text2, payload, user2, h, hv2, hf, hact, -⟩
            rw [hinj text text2 h, hv] at hv2
            cases hv2
            rw [hu] at hf
            cases hf
            rw [ha] at hact
            exact Bool.noConfusion hact
          | true =>
            have hres : AuthMiddleware.authenticate env decode users now
                (some ("Bearer " ++ text))
                = .next { user := AuthService.userResponse user
                          userId := user._id
                          userRole := user.role } := by
              simp only [AuthMiddleware.authenticate, if_neg hb, bearer_text, hv, hu, ha]
              rfl
            rw [hres]
            refine ⟨fun bound => ?_, Or.inl ⟨_, rfl⟩⟩
            simp only [AuthMiddleware.Outcome.next.injEq]
            constructor
            · intro h
              exact ⟨text, decoded, user, rfl, hv, hu, ha, h.symm⟩
            · rintro ⟨text2, payload, user2, h, hv2, hf, -, hbound⟩
              rw [hinj text text2 h, hv] at hv2
              cases hv2
              rw [hu] at hf
              cases hf
              exact hbound.symm

/-- C22: for every list of allowed roles and every request, the handler returned by
`authorize(...roles)` calls `next` if and only if the request has an authenticated user
whose role is one of the allowed roles; it answers 403 exactly when a user is bound whose
role is not among them, and 401 exactly when no user is bound. -/
theorem authorize_passes (roles : List String) (user : Option AuthService.UserResponse) :
    (AuthMiddleware.authorize roles user = .next ↔ ∃ u, user = some u ∧ u.role ∈ roles)
      ∧ ((∃ message, AuthMiddleware.authorize roles user = .respond 403 message)
        ↔ ∃ u, user = some u ∧ u.role ∉ roles)
      ∧ ((∃ message, AuthMiddleware.authorize roles user = .respond 401 message)
        ↔ user = none) := by
  cases user with
  | none => simp [AuthMiddleware.authorize]
  | some u =>
    by_cases h : u.role ∈ roles
    · simp [AuthMiddleware.authorize, h]
    · simp [AuthMiddleware.authorize, h]

/-- C23: for every account and every update payload, patient `updateProfile` leaves every
stored account as it was except the one with the given id, and of that one it changes no
field but name, phone, address, dateOfBirth and gender, and among those only the ones
present in the payload, which take the payload's values; `_id`, email, password, role and
the active flag are unchanged even when the payload carries values for them. -/
theorem updateProfile_frame (runValidators : PatientService.UpdateData → Bool)
    (users : List User) (userId : ObjectId) (updateData : PatientService.UpdateData) :
    List.Forall₂
      (fun u v => v = u ∨ (u._id = userId ∧ PatientService.AllowedChange updateData u v))
      users (PatientService.updateProfile runValidators users userId updateData).2 := by
  have hsame : List.Forall₂
      (fun u v => v = u ∨ (u._id = userId ∧ PatientService.AllowedChange updateData u v))
      users users :=
    List.forall₂_same.mpr (fun _ _ => Or.inl rfl)
  have hchanged : List.Forall₂
      (fun u v => v = u ∨ (u._id = userId ∧ PatientService.AllowedChange updateData u v))
      users
      (PatientService.updateFirst userId (PatientService.applyAllowed updateData) users) := by
    refine List.Forall₂.imp ?_
      (updateFirst_forall₂ userId (PatientService.applyAllowed updateData) users)
    intro u v huv
    rcases huv with h | ⟨hid, hv⟩
    · exact Or.inl h
    · exact Or.inr ⟨hid, hv ▸ applyAllowed_allowedChange updateData u⟩
  unfold PatientService.updateProfile
  split_ifs with h1
  · exact hsame
  · split
    · exact hsame
    · split_ifs
      · exact hchanged
      · exact hchanged

/-- C24, broken by the code: `updateProfile` called with the id of doctor X and a new name
fails with 'User is not a patient', and the stored account of doctor X carries the new
name: `findByIdAndUpdate` has written before the role is tested. -/
theorem updateProfile_writes_then_fails :
    PatientService.updateProfile (fun _ => true) Sample.users Sample.doctorX._id
        { name := some "Y", phone := none, address := none, dateOfBirth := none,
          gender := none, email := none, role := none, password := none, isActive := none }
      = (.error .notPatient,
          [Sample.patientP, Sample.patientQ, { Sample.doctorX with name := "Y" }])
      ∧ PatientService.PatientError.message .notPatient = some "User is not a patient"
      ∧ Sample.users ≠ [Sample.patientP, Sample.patientQ, { Sample.doctorX with name := "Y" }] :=
  ⟨rfl, rfl, by decide⟩

/-- C25, broken by the code: doctor X calls `createProfile` with a payload whose `userId`
key is the id of patient P; the profile reached is owned by patient P, an account whose
role is not doctor. (That no two profiles have the same owner does hold, by the unique
index on `userId`.) -/
theorem profile_owned_by_patient :
    profilesAfter Sample.accounts
        [{ now := Sample.may20, newId := ⟨"670000000000000000000001"⟩,
           userId := Sample.doctorX._id,
           doctorData := Sample.profileData (some Sample.patientP._id) "Cardiology" }]
      = [Sample.profile "670000000000000000000001" Sample.patientP._id "Cardiology"
          Sample.may20]
      ∧ User.findById Sample.accounts Sample.patientP._id = some Sample.patientP
      ∧ Sample.patientP.role = "patient" :=
  ⟨rfl, by decide, rfl⟩

/-- C29, broken by the code: the handler `createProfile`, for doctor X authenticated and
a body whose `userId` key is the id of doctor Z, answers 201 with a profile whose owning
account id is that of doctor Z, not of the caller; without the key the profile is owned
by the caller. -/
theorem controller_profile_other_owner :
    (DoctorController.createProfile Sample.accounts [] Sample.may20
        ⟨"670000000000000000000001"⟩ Sample.doctorX._id
        (Sample.profileData (some Sample.doctorZ._id) "Cardiology")).1
      = { code := 201, success := true, message := some "Doctor profile created successfully",
          data := some (Sample.profile "670000000000000000000001" Sample.doctorZ._id
            "Cardiology" Sample.may20) }
      ∧ (Sample.profile "670000000000000000000001" Sample.doctorZ._id "Cardiology"
          Sample.may20).userId ≠ Sample.doctorX._id
      ∧ (DoctorController.createProfile Sample.accounts [] Sample.may20
          ⟨"670000000000000000000001"⟩ Sample.doctorX._id
          (Sample.profileData none "Cardiology")).1
        = { code := 201, success := true,
            message := some "Doctor profile created successfully",
            data := some (Sample.profile "670000000000000000000001" Sample.doctorX._id
              "Cardiology" Sample.may20) } :=
  ⟨rfl, by decide, rfl⟩

/-- C26, broken by the code: the filter "." returns both stored profiles, of which
neither has a specialization that contains a full stop, and the filters "(" and "*" make
`getAllDoctors` throw; the filter is compiled as a regular expression, not searched as a
text. A filter without syntax characters, "CARDIO", does return the profiles whose
specialization contains it when letter case is ignored. -/
theorem getAllDoctors_pattern_filter :
    DoctorService.getAllDoctors Sample.profiles (some ".")
        = .ok [Sample.profile "670000000000000000000002" Sample.doctorZ._id "Dermatology"
                Sample.june1,
              Sample.profile "670000000000000000000001" Sample.doctorX._id "Cardiology"
                Sample.may20]
      ∧ includesChars (toLowerCase "Cardiology").data (toLowerCase ".").data = false
      ∧ includesChars (toLowerCase "Dermatology").data (toLowerCase ".").data = false
      ∧ DoctorService.getAllDoctors Sample.profiles (some "(")
        = .error (.regExp (.syntaxError "Unterminated group"))
      ∧ DoctorService.getAllDoctors Sample.profiles (some "*")
        = .error (.regExp (.syntaxError "Nothing to repeat"))
      ∧ DoctorService.getAllDoctors Sample.profiles (some "CARDIO")
        = .ok [Sample.profile "670000000000000000000001" Sample.doctorX._id "Cardiology"
                Sample.may20] :=
  ⟨rfl, by decide, by decide, rfl, rfl, rfl⟩

/-- C27, refuted as stated: patient Q, a stranger to the appointment of patient P, asks
to cancel it and is answered with 400, not 403; a request for an appointment id that is
not stored is answered with 400, not 404. -/
theorem controller_update_status_codes :
    AppointmentController.updateAppointmentStatus [Sample.apt "pending"] Sample.may20
        (AppointmentController.attachUser Sample.patientQ (Sample.apt "pending")._id
          (some "cancelled") none)
      = (AppointmentController.sendError 400
          (some "Unauthorized to update this appointment"), [Sample.apt "pending"])
      ∧ AppointmentController.updateAppointmentStatus [] Sample.may20
          (AppointmentController.attachUser Sample.patientP (Sample.apt "pending")._id
            (some "confirmed") none)
        = (AppointmentController.sendError 400 (some "Appointment not found"), []) :=
  ⟨rfl, rfl⟩

/-- C27, amended: for every request with a status, the update-status handler answers 400
with 'Appointment not found' when the appointment id is not stored, and 400 with
'Unauthorized to update this appointment' when the caller has role 'patient' or 'doctor'
and is neither the patient nor the doctor of the stored appointment; in both cases the
store is unchanged. -/
theorem controller_update_refusals (store : Store) (nowSave : Int) (user : User)
    (id : ObjectId) (status : String) (cancellationReason : Option String)
    (hstatus : status ≠ "") :
    (findById store id = none →
        AppointmentController.updateAppointmentStatus store nowSave
            (AppointmentController.attachUser user id (some status) cancellationReason)
          = (AppointmentController.sendError 400 (some "Appointment not found"), store))
      ∧ (∀ appointment, findById store id = some appointment →
          (user.role = "patient" ∨ user.role = "doctor") →
          user._id ≠ appointment.patientId → user._id ≠ appointment.doctorId →
          AppointmentController.updateAppointmentStatus store nowSave
              (AppointmentController.attachUser user id (some status) cancellationReason)
            = (AppointmentController.sendError 400
                (some "Unauthorized to update this appointment"), store)) := by
  constructor
  · intro hnone
    have hsvc : updateAppointmentStatus store nowSave id status (.oid user._id) user.role
        cancellationReason = (.error .appointmentNotFound, store) := by
      simp [updateAppointmentStatus, hnone]
    simp [AppointmentController.updateAppointmentStatus, AppointmentController.attachUser,
      hstatus, hsvc, Err.message]
  · intro appointment hfind hrole _ _
    have hid := (findById_some hfind).2
    subst hid
    exact controller_update_refused store nowSave user appointment status cancellationReason
      hrole hfind hstatus

/-- C27, amended, at an instance: patient Q asks to confirm an appointment in an empty
store. -/
theorem controller_update_refusals_witness :
    ("confirmed" : String) ≠ ""
      ∧ findById [] (Sample.apt "pending")._id = none
      ∧ AppointmentController.updateAppointmentStatus [] Sample.may20
          (AppointmentController.attachUser Sample.patientQ (Sample.apt "pending")._id
            (some "confirmed") none)
        = (AppointmentController.sendError 400 (some "Appointment not found"), []) :=
  ⟨by decide, rfl,
    (controller_update_refusals [] Sample.may20 Sample.patientQ (Sample.apt "pending")._id
      "confirmed" none (by decide)).1 rfl⟩

/-- C28, refuted as stated: the patient of an appointment whose date has passed asks for
the status 'rescheduled', which the schema does not list; the call fails with the
validation error on `status`, not with the past-date error, because validation runs
before the `pre('save')` hook. -/
theorem updateAppointmentStatus_past_validation_first :
    (Sample.apt "pending").appointmentDate < Sample.july1
      ∧ updateAppointmentStatus [Sample.apt "pending"] Sample.july1 (Sample.apt "pending")._id
          "rescheduled" (.str Sample.patientP._id.toString) "patient" none
        = (.error (.validationFailed ["status"]), [Sample.apt "pending"])
      ∧ Err.message (.validationFailed ["status"])
        ≠ some "Appointment date cannot be in the past" :=
  ⟨by decide, rfl, by decide⟩

/-- C28, amended: for every valid stored appointment whose appointmentDate is earlier than
the moment of saving, `updateAppointmentStatus` called by its own patient or doctor fails
and leaves the store unchanged: with 'Appointment date cannot be in the past' when the
requested status is one of pending, confirmed, completed, cancelled, and with the
validation error on `status` otherwise. -/
theorem updateAppointmentStatus_past (store : Store) (nowSave : Int)
    (appointmentId : ObjectId) (status : String) (userId : CallerId) (userRole : String)
    (cancellationReason : Option String) (old : Appointment)
    (hfind : findById store appointmentId = some old)
    (howner : userRole = "patient" ∧ userId = .str old.patientId.toString
      ∨ userRole = "doctor" ∧ userId = .str old.doctorId.toString)
    (hvalid : invalidPaths old = []) (hpast : old.appointmentDate < nowSave) :
    (status ∈ statusEnum →
        updateAppointmentStatus store nowSave appointmentId status userId userRole
            cancellationReason = (.error .pastDateOnSave, store)
          ∧ Err.message .pastDateOnSave = some "Appointment date cannot be in the past")
      ∧ (status ∉ statusEnum →
        updateAppointmentStatus store nowSave appointmentId status userId userRole
            cancellationReason = (.error (.validationFailed ["status"]), store)) := by
  have hguard1 : ¬ (userRole = "patient"
      ∧ strictNe old.patientId.toString userId = true) := by
    rcases howner with ⟨h, hu⟩ | ⟨h, _⟩
    · subst hu; simp [strictNe]
    · subst h; simp
  have hguard2 : ¬ (userRole = "doctor"
      ∧ strictNe old.doctorId.toString userId = true) := by
    rcases howner with ⟨h, _⟩ | ⟨h, hu⟩
    · subst h; simp
    · subst hu; simp [strictNe]
  have hrole : userRole ∈ cancelledByEnum := by
    rcases howner with ⟨h, _⟩ | ⟨h, _⟩ <;> subst h <;> simp [cancelledByEnum]
  rw [invalidPaths_eq_nil] at hvalid
  obtain ⟨ht, hdur, -, hreason, hcby⟩ := hvalid
  have hdur2 : ¬ old.duration < 15 := by omega
  have hr : (match old.reason with
      | some r => if 500 < jsLength r then ["reason"] else []
      | none => []) = [] := by
    cases hro : old.reason with
    | none => rfl
    | some r => simp only; rw [if_neg]; have := hreason r hro; omega
  have hc : (match old.cancelledBy with
      | some c => if c ∈ cancelledByEnum then [] else ["cancelledBy"]
      | none => []) = [] := by
    cases hco : old.cancelledBy with
    | none => rfl
    | some c => simp only; rw [if_pos (hcby c hco)]
  constructor
  · intro hstatus
    refine ⟨?_, rfl⟩
    have hsave : ∀ a : Appointment, invalidPaths a = [] →
        a.appointmentDate = old.appointmentDate →
        save store nowSave a = (.error .pastDateOnSave, store) := by
      intro a hv hd
      simp [save, hv, preSaveRejects, hd, hpast]
    unfold updateAppointmentStatus
    simp only [hfind, hguard1, hguard2, if_false]
    split_ifs with hcancel
    · apply hsave
      · rw [invalidPaths_eq_nil]
        refine ⟨ht, hdur, hstatus, hreason, ?_⟩
        intro c hcc
        simp only [Option.some.injEq] at hcc
        exact hcc ▸ hrole
      · rfl
    · apply hsave
      · rw [invalidPaths_eq_nil]
        exact ⟨ht, hdur, hstatus, hreason, hcby⟩
      · rfl
  · intro hstatus
    have hne : ¬ (status = "cancelled" ∧ truthy cancellationReason = true) := by
      rintro ⟨h, -⟩
      exact hstatus (by rw [h]; decide)
    have hinv : invalidPaths { old with status := status } = ["status"] := by
      simp [invalidPaths, ht, hdur2, hstatus, hr, hc]
    unfold updateAppointmentStatus
    simp only [hfind, hguard1, hguard2, if_false, if_neg hne]
    simp [save, hinv]

/-- C28, amended, at an instance: doctor X asks to complete the appointment of 1 June on
1 July. -/
theorem updateAppointmentStatus_past_witness :
    findById [Sample.apt "pending"] (Sample.apt "pending")._id = some (Sample.apt "pending")
      ∧ invalidPaths (Sample.apt "pending") = []
      ∧ (Sample.apt "pending").appointmentDate < Sample.july1
      ∧ updateAppointmentStatus [Sample.apt "pending"] Sample.july1 (Sample.apt "pending")._id
          "completed" (.str Sample.doctorX._id.toString) "doctor" none
        = (.error .pastDateOnSave, [Sample.apt "pending"]) :=
  ⟨rfl, rfl, by decide,
    ((updateAppointmentStatus_past [Sample.apt "pending"] Sample.july1
      (Sample.apt "pending")._id "completed" (.str Sample.doctorX._id.toString) "doctor" none
      (Sample.apt "pending") rfl (Or.inr ⟨rfl, rfl⟩) rfl (by decide)).1 (by decide)).1⟩

/-- C30: `analyzeConversation` gives the same result on two message lists with the same
messages of role 'user'; its severity is 'high' exactly when the lower-cased, space-joined
text of those messages contains 'chest pain' or 'shortness of breath'; otherwise 'medium'
exactly when 'fever' is detected with more than 2 distinct symptoms or more than 3
distinct symptoms are detected; otherwise 'low'; and the returned symptoms list is not
empty and has no duplicates. -/
theorem analyzeConversation_severity (dateText : String)
    (messages others : List ReportService.Message)
    (hsame : others.filter (fun msg => decide (msg.role = "user"))
      = messages.filter (fun msg => decide (msg.role = "user"))) :
    ReportService.analyzeConversation dateText others
        = ReportService.analyzeConversation dateText messages
      ∧ ((ReportService.analyzeConversation dateText messages).severity = "high"
          ↔ includesChars (ReportService.allText messages).data "chest pain".data = true
            ∨ includesChars (ReportService.allText messages).data
                "shortness of breath".data = true)
      ∧ ((ReportService.analyzeConversation dateText messages).severity = "medium"
          ↔ ¬ (includesChars (ReportService.allText messages).data "chest pain".data = true
              ∨ includesChars (ReportService.allText messages).data
                  "shortness of breath".data = true)
            ∧ (includesChars (ReportService.allText messages).data "fever".data = true
                ∧ 2 < ReportService.distinctSymptoms (ReportService.allText messages)
              ∨ 3 < ReportService.distinctSymptoms (ReportService.allText messages)))
      ∧ ((ReportService.analyzeConversation dateText messages).severity = "low"
          ↔ ¬ (includesChars (ReportService.allText messages).data "chest pain".data = true
              ∨ includesChars (ReportService.allText messages).data
                  "shortness of breath".data = true)
            ∧ ¬ (includesChars (ReportService.allText messages).data "fever".data = true
                ∧ 2 < ReportService.distinctSymptoms (ReportService.allText messages)
              ∨ 3 < ReportService.distinctSymptoms (ReportService.allText messages)))
      ∧ (ReportService.analyzeConversation dateText messages).symptoms ≠ []
      ∧ (ReportService.analyzeConversation dateText messages).symptoms.Nodup := by
  have hu := uniqueInOrder_of_nodup (symptomsOf_nodup (ReportService.allText messages))
  have hchest : "Chest Pain" ∈ ReportService.symptomsOf (ReportService.allText messages)
      ↔ includesChars (ReportService.allText messages).data "chest pain".data = true :=
    mem_symptomsOf (ReportService.allText messages)
      (show ("chest pain", "Chest Pain") ∈ ReportService.symptomKeywords by decide)
  have hbreath :
      "Shortness of Breath" ∈ ReportService.symptomsOf (ReportService.allText messages)
        ↔ includesChars (ReportService.allText messages).data
            "shortness of breath".data = true :=
    mem_symptomsOf (ReportService.allText messages)
      (show ("shortness of breath", "Shortness of Breath") ∈ ReportService.symptomKeywords
        by decide)
  have hfever : "Fever" ∈ ReportService.symptomsOf (ReportService.allText messages)
      ↔ includesChars (ReportService.allText messages).data "fever".data = true :=
    mem_symptomsOf (ReportService.allText messages)
      (show ("fever", "Fever") ∈ ReportService.symptomKeywords by decide)
  have hlen := length_symptomsOf (ReportService.allText messages)
  have hm : ("medium" : String) ≠ "low" := by decide
  have hh : ("high" : String) ≠ "medium" := by decide
  have hl : ("high" : String) ≠ "low" := by decide
  refine ⟨?_, ?_, ?_, ?_, ?_, ?_⟩
  · simp only [ReportService.analyzeConversation, ReportService.allText, hsame]
  all_goals
    simp only [ReportService.analyzeConversation, hu, List.elem_eq_mem, Bool.or_eq_true,
      Bool.and_eq_true, decide_eq_true_eq, hchest, hbreath, hfever, hlen]
  · split_ifs <;> simp_all
  · split_ifs <;> simp_all
  · split_ifs <;> simp_all
  · split_ifs with h
    · intro h0
      rw [← hlen, h0] at h
      exact absurd h (by decide)
    · simp
  · split_ifs with h
    · exact symptomsOf_nodup _
    · simp

/-- C30, at an instance: a conversation with fever, cough and headache, with and without
the message of the assistant. -/
theorem analyzeConversation_severity_witness :
    [(⟨"user", "I have a Fever and a cough"⟩ : ReportService.Message),
          ⟨"user", "also HEADACHE"⟩].filter (fun msg => decide (msg.role = "user"))
        = [(⟨"user", "I have a Fever and a cough"⟩ : ReportService.Message),
            ⟨"assistant", "chest pain?"⟩, ⟨"user", "also HEADACHE"⟩].filter
          (fun msg => decide (msg.role = "user"))
      ∧ (ReportService.analyzeConversation "6/1/2025"
            [⟨"user", "I have a Fever and a cough"⟩, ⟨"user", "also HEADACHE"⟩]
          = ReportService.analyzeConversation "6/1/2025"
              [⟨"user", "I have a Fever and a cough"⟩, ⟨"assistant", "chest pain?"⟩,
                ⟨"user", "also HEADACHE"⟩])
      ∧ (ReportService.analyzeConversation "6/1/2025"
            [⟨"user", "I have a Fever and a cough"⟩, ⟨"assistant", "chest pain?"⟩,
              ⟨"user", "also HEADACHE"⟩]).severity = "medium"
      ∧ (ReportService.analyzeConversation "6/1/2025"
            [⟨"user", "I have a Fever and a cough"⟩, ⟨"assistant", "chest pain?"⟩,
              ⟨"user", "also HEADACHE"⟩]).symptoms = ["Headache", "Fever", "Cough"] :=
  ⟨rfl,
    (analyzeConversation_severity "6/1/2025"
      [⟨"user", "I have a Fever and a cough"⟩, ⟨"assistant", "chest pain?"⟩,
        ⟨"user", "also HEADACHE"⟩]
      [⟨"user", "I have a Fever and a cough"⟩, ⟨"user", "also HEADACHE"⟩] rfl).1,
    rfl, rfl⟩

end Claims

end SehatSathi
